import Mathlib

set_option maxRecDepth 8000
set_option maxHeartbeats 2000000

/-!
# Verification of the feedcast dialogue-script pipeline

Shallow embedding of the core text pipeline of the `rss_podcast` package:

* `script_generator.py` — the multi-call script assembly loop
  (`_generate_detailed_script`, `_call_llm`, `_call_llm_continuation`) and the
  cascading segment parser (`_parse_script`);
* `text_normalizer.py` — the TTS text sanitizer (`clean_script_for_tts`),
  the repetition-artifact detector (`detect_repetition_artifacts`), the
  pronunciation normalizer (`normalize_text_for_tts`), the XTTS glitch fixes
  (`fix_xtts_glitches`) and the combined pipeline (`sanitize_segment_text`);
* `tts_engine.py` — the length-bounded chunker (`_split_long_text`) and the
  segment splitter (`_split_segment_if_needed`).

Strings are modelled as `List Char` internally (Python `str` indexing is by
code point, as is `List Char`), with `String` wrappers at the interfaces.
Python regular-expression steps are hand-translated into explicit scanners
that reproduce the leftmost, non-overlapping `re.sub`/`re.findall` semantics
of each concrete pattern, including greedy/lazy backtracking where it is
observable.  Loops whose termination is data-dependent take explicit fuel and
return `Option`, `none` marking fuel exhaustion (used to reason about the
one genuinely diverging configuration of the chunker).
-/

namespace Feedcast

/-! ## Character classes

Python's `\s` for `str` patterns is `[ \t\n\r\f\v]` plus exotic Unicode
spaces; the pipeline's data only ever contains the ASCII ones.  `\w` and the
letter classes are Unicode-aware in Python; the program's data and prompts use
the ASCII and Polish alphabets, which is what we model. -/

def pyIsSpace (c : Char) : Bool :=
  c = ' ' || c = '\t' || c = '\n' || c = '\r' || c = '\x0b' || c = '\x0c'

def isAsciiDigit (c : Char) : Bool := 48 ≤ c.toNat && c.toNat ≤ 57

def polishLowerChars : List Char := ['ą', 'ć', 'ę', 'ł', 'ń', 'ó', 'ś', 'ź', 'ż']

def polishUpperChars : List Char := ['Ą', 'Ć', 'Ę', 'Ł', 'Ń', 'Ó', 'Ś', 'Ź', 'Ż']

/-- Lower-casing covering ASCII plus the Polish letters (Python `str.lower`
restricted to the alphabet this program uses). -/
def toLowerPL (c : Char) : Char :=
  if 65 ≤ c.toNat && c.toNat ≤ 90 then Char.ofNat (c.toNat + 32)
  else if c = 'Ą' then 'ą' else if c = 'Ć' then 'ć' else if c = 'Ę' then 'ę'
  else if c = 'Ł' then 'ł' else if c = 'Ń' then 'ń' else if c = 'Ó' then 'ó'
  else if c = 'Ś' then 'ś' else if c = 'Ź' then 'ź' else if c = 'Ż' then 'ż'
  else c

/-- Upper-casing covering ASCII plus the Polish letters. -/
def toUpperPL (c : Char) : Char :=
  if 97 ≤ c.toNat && c.toNat ≤ 122 then Char.ofNat (c.toNat - 32)
  else if c = 'ą' then 'Ą' else if c = 'ć' then 'Ć' else if c = 'ę' then 'Ę'
  else if c = 'ł' then 'Ł' else if c = 'ń' then 'Ń' else if c = 'ó' then 'Ó'
  else if c = 'ś' then 'Ś' else if c = 'ź' then 'Ź' else if c = 'ż' then 'Ż'
  else c

/-- Letters, as in the lookbehind class `[a-zA-ZąćęłńóśźżĄĆĘŁŃÓŚŹŻ]` of
`fix_xtts_glitches`. -/
def isLetterPL (c : Char) : Bool :=
  (97 ≤ c.toNat && c.toNat ≤ 122) || (65 ≤ c.toNat && c.toNat ≤ 90) ||
    polishLowerChars.contains c || polishUpperChars.contains c

/-- Word characters (`\w`) over the program's alphabet: ASCII alphanumerics,
underscore, and Polish letters. -/
def isWordChar (c : Char) : Bool :=
  isLetterPL c || isAsciiDigit c || c = '_'

def isUpperPL (c : Char) : Bool :=
  (65 ≤ c.toNat && c.toNat ≤ 90) || polishUpperChars.contains c

/-! ## List-of-char helpers -/

/-- Length of the longest run of characters satisfying `p` at the head. -/
def runLen (p : Char → Bool) : List Char → Nat
  | [] => 0
  | c :: cs => if p c then runLen p cs + 1 else 0

/-- Case-insensitive literal match at the head (via `toLowerPL`). -/
def ciPref : List Char → List Char → Bool
  | [], _ => true
  | _ :: _, [] => false
  | p :: ps, c :: cs => toLowerPL p = toLowerPL c && ciPref ps cs

/-- Python `str.strip()`. -/
def pyStrip (cs : List Char) : List Char :=
  ((cs.dropWhile pyIsSpace).reverse.dropWhile pyIsSpace).reverse

def pyLower (cs : List Char) : List Char := cs.map toLowerPL

/-- Helper for `pySplit`: `acc` holds the current token, reversed. -/
def pySplitAux (acc : List Char) : List Char → List (List Char)
  | [] => if acc = [] then [] else [acc.reverse]
  | c :: cs =>
    if pyIsSpace c then
      if acc = [] then pySplitAux [] cs else acc.reverse :: pySplitAux [] cs
    else pySplitAux (c :: acc) cs

/-- Python `str.split()` (split on whitespace runs, no empty tokens). -/
def pySplit (cs : List Char) : List (List Char) := pySplitAux [] cs

/-! ## Script Assembler (`_generate_detailed_script`, script_generator.py 64-87)

The loop appends continuations until the accumulated script reaches
`min_length` or `max_continuations` calls were made; a continuation of fewer
than 300 characters (including the empty string — `if not continuation or
len(continuation) < 300`) stops the loop *without* being appended.  The code
instantiates `min_length = 15000`, `max_continuations = 5`; the bounds are
kept as parameters.  `cont k` is the text returned by the `k`-th continuation
call. Fuel is `maxContinuations - continuation_count`, so the loop is
structurally bounded exactly as in the source. -/

def scriptLoop (minLength : Nat) (cont : Nat → String) :
    Nat → Nat → String → String × Nat
  | 0, count, script => (script, count)
  | fuel + 1, count, script =>
    if script.length < minLength then
      let c := cont (count + 1)
      if c.length < 300 then (script, count + 1)
      else scriptLoop minLength cont fuel (count + 1) (script ++ "\n\n" ++ c)
    else (script, count)

/-- `_generate_detailed_script`: the returned pair is (final raw text,
number of continuation calls made). -/
def generateDetailedScript (minLength maxContinuations : Nat)
    (initial : String) (cont : Nat → String) : String × Nat :=
  scriptLoop minLength cont maxContinuations 0 initial

/-! ## External call wrappers (`_call_llm`, `_call_llm_continuation`)

`_call_llm` raises `RuntimeError` on a non-200 status; the continuation call
instead logs a warning and returns the empty string.  An HTTP response is
modelled by its status code, its error text and its `message.content`. -/

structure HttpResponse where
  status : Nat
  errText : String
  content : String

/-- `_call_llm` (script_generator.py 168-199): non-200 raises. -/
def callLLM (resp : HttpResponse) : Except String String :=
  if resp.status ≠ 200 then .error ("Ollama API error: " ++ resp.errText)
  else .ok resp.content

/-- `_call_llm_continuation` (script_generator.py 89-141): non-200 returns `""`. -/
def callLLMContinuation (resp : HttpResponse) : String :=
  if resp.status ≠ 200 then "" else resp.content

/-- The assembly loop driven by actual HTTP responses: the initial call's
failure propagates as an error; continuation responses are filtered through
`callLLMContinuation`. -/
def generateDetailedScriptHttp (minLength maxContinuations : Nat)
    (initResp : HttpResponse) (contResp : Nat → HttpResponse) :
    Except String (String × Nat) :=
  match callLLM initResp with
  | .error e => .error e
  | .ok s =>
    .ok (generateDetailedScript minLength maxContinuations s
      (fun k => callLLMContinuation (contResp k)))

/-! ## Segment Chunker (`_split_long_text`, tts_engine.py 30-87)

The loop takes the window `remaining[:max_chars]`, looks for the end of the
last `[.!?]\s+` match in it, else the last `[,;]\s+` match, else the last
space provided it is past `max_chars // 2`, else cuts at `max_chars`;
the produced chunk and the remainder are both `strip`ped.  Matches of
`[.!?]\s+` never overlap (a match is punctuation followed by a whitespace run,
and no later match can start inside that run), so scanning every position and
keeping the last end reproduces `finditer`. -/

/-- End position (exclusive) of the last `[p]\s+` match in `w`, scanning like
`re.finditer`; `none` if there is no match. -/
def lastBreakEndAux (punct : Char → Bool) : Nat → Option Nat → List Char → Option Nat
  | _, best, [] => best
  | i, best, c :: cs =>
    let r := runLen pyIsSpace cs
    let best' := if punct c && decide (1 ≤ r) then some (i + 1 + r) else best
    lastBreakEndAux punct (i + 1) best' cs

def lastBreakEnd (punct : Char → Bool) (w : List Char) : Option Nat :=
  lastBreakEndAux punct 0 none w

/-- Index of the last `' '` in `w` (Python `str.rfind(' ')`, `none` for -1). -/
def rfindCharAux (x : Char) : Nat → Option Nat → List Char → Option Nat
  | _, best, [] => best
  | i, best, c :: cs => rfindCharAux x (i + 1) (if c = x then some i else best) cs

def rfindChar (x : Char) (w : List Char) : Option Nat := rfindCharAux x 0 none w

def sentencePunct (c : Char) : Bool := c = '.' || c = '!' || c = '?'

def clausePunct (c : Char) : Bool := c = ',' || c = ';'

/-- The split position chosen for one iteration of the `while` body of
`_split_long_text`, on `remaining` with `remaining.length > maxChars`; the
window is `chunk = remaining[:max_chars]`. -/
def splitPos (maxChars : Nat) (remaining : List Char) : Nat :=
  match lastBreakEnd sentencePunct (remaining.take maxChars) with
  | some e => e
  | none =>
    match lastBreakEnd clausePunct (remaining.take maxChars) with
    | some e => e
    | none =>
      match rfindChar ' ' (remaining.take maxChars) with
      | some i => if maxChars / 2 < i then i else maxChars
      | none => maxChars

/-- The chunking loop.  Each iteration emits `strip(remaining.take k)` and
continues on `strip(remaining.drop k)` where `k = splitPos`; `none` models
fuel exhaustion, i.e. the Python loop not having terminated within `fuel`
iterations. -/
def splitLoop (maxChars : Nat) : Nat → List Char → Option (List (List Char))
  | 0, remaining => if remaining = [] then some [] else none
  | fuel + 1, remaining =>
    if remaining = [] then some []
    else if remaining.length ≤ maxChars then some [remaining]
    else
      let k := splitPos maxChars remaining
      match splitLoop maxChars fuel (pyStrip (remaining.drop k)) with
      | none => none
      | some cs => some (pyStrip (remaining.take k) :: cs)

/-- `_split_long_text text max_chars`, with fuel `text.length + 1` (shown
sufficient whenever `1 ≤ maxChars`). -/
def splitLongTextL (text : List Char) (maxChars : Nat) : Option (List (List Char)) :=
  if text.length ≤ maxChars then some [text]
  else splitLoop maxChars (text.length + 1) (pyStrip text)

def splitLongText (text : String) (maxChars : Nat) : Option (List String) :=
  (splitLongTextL text.data maxChars).map (List.map List.asString)

/-- The non-whitespace characters of a text, in order. -/
def nonWs (cs : List Char) : List Char := cs.filter (fun c => !pyIsSpace c)

/-- Join chunks with single spaces (the reconstruction reading of §4.6). -/
def joinSp : List (List Char) → List Char
  | [] => []
  | [c] => c
  | c :: cs => c ++ ' ' :: joinSp cs

/-! ## Artifact Detector (`detect_repetition_artifacts`, text_normalizer.py 488-535)

Four checks over the lower-cased text, any of which yields `True`:
char runs of 6+, four consecutive identical words (window `max_repeats + 1`),
short repeating token patterns (a backreference regex), and a dominant bigram.
The `min_repeat_length` parameter of the source is unused by its body. -/

/-- `re.search(r'(.)\1{5,}', t)`: six consecutive equal characters; `(.)`
cannot match a newline. -/
def detectCharRun : List Char → Bool
  | [] => false
  | c :: cs => (c ≠ '\n' && List.isPrefixOf [c, c, c, c, c] cs) || detectCharRun cs

/-- `len(set(l)) == 1` for a list slice. -/
def allEqualTok : List (List Char) → Bool
  | [] => false
  | w :: ws => ws.all (· == w)

/-- The consecutive-identical-words check: any window of `maxRepeats + 1`
words that are all equal, the word having length ≥ 2. -/
def detectWordRun (maxRepeats : Nat) (words : List (List Char)) : Bool :=
  if maxRepeats + 1 ≤ words.length then
    (List.range (words.length - maxRepeats)).any fun i =>
      allEqualTok ((words.drop i).take (maxRepeats + 1)) &&
        decide (2 ≤ ((words.drop i).headD []).length)
  else false

/-- `\S{n}` at the head: exactly `n` non-whitespace characters. -/
def takeNonWs : Nat → List Char → Option (List Char × List Char)
  | 0, cs => some ([], cs)
  | _ + 1, [] => none
  | n + 1, c :: cs =>
    if pyIsSpace c then none
    else (takeNonWs n cs).map (fun p => (c :: p.1, p.2))

/-- Maximal whitespace run at the head, with the rest. -/
def wsChunk (cs : List Char) : List Char × List Char :=
  (cs.takeWhile pyIsSpace, cs.dropWhile pyIsSpace)

/-- `\s+\1\s+\1` after the group `g` (whose first character is non-whitespace,
so each `\s+` is forced to the maximal run). -/
def patTail (g : List Char) (rest : List Char) : Bool :=
  let p1 := wsChunk rest
  if p1.1 = [] then false
  else if List.isPrefixOf g p1.2 then
    let p2 := wsChunk (p1.2.drop g.length)
    if p2.1 = [] then false else List.isPrefixOf g p2.2
  else false

/-- One anchored attempt of `(\S{n}(?:\s+\S{n})?)\s+\1\s+\1`; the optional
part is tried first (greedy), mirroring the backtracking order. -/
def patAt (n : Nat) (cs : List Char) : Bool :=
  match takeNonWs n cs with
  | none => false
  | some (w1, r1) =>
    let withOpt :=
      let p := wsChunk r1
      if p.1 = [] then false
      else
        match takeNonWs n p.2 with
        | none => false
        | some (w2, r3) => patTail (w1 ++ p.1 ++ w2) r3
    withOpt || patTail w1 r1

/-- `re.search` over all start positions. -/
def anyStart (f : List Char → Bool) : List Char → Bool
  | [] => f []
  | c :: cs => f (c :: cs) || anyStart f cs

/-- The syllable/short-pattern check, `pattern_len` ranging over 2..6. -/
def detectShortLoop (cs : List Char) : Bool :=
  anyStart (fun s => (List.range' 2 5).any fun n => patAt n s) cs

/-- Adjacent-word bigrams, as `f"{words[i]} {words[i+1]}"`. -/
def bigramsOf (words : List (List Char)) : List (List Char) :=
  match words with
  | [] => []
  | _ :: tl => List.zipWith (fun a b => a ++ ' ' :: b) words tl

/-- The dominant-bigram check.  The float comparison
`max_count > len(bigrams) * 0.3` agrees with `10 * max_count > 3 * len`
throughout the relevant integer range. -/
def detectBigramLoop (maxRepeats : Nat) (words : List (List Char)) : Bool :=
  if 10 ≤ words.length then
    let bgs := bigramsOf words
    let maxCount := (bgs.map (fun b => bgs.count b)).foldr max 0
    decide (maxRepeats < maxCount) && decide (3 * bgs.length < 10 * maxCount)
  else false

/-- `detect_repetition_artifacts(text, max_repeats)`; the early returns of the
source make the result the disjunction of the four checks. -/
def detectRepetitionArtifacts (maxRepeats : Nat) (text : String) : Bool :=
  let lower := pyLower text.data
  let words := pySplit lower
  detectCharRun lower || detectWordRun maxRepeats words ||
    detectShortLoop lower || detectBigramLoop maxRepeats words

/-- The detector with its default `max_repeats = 3` (how the pipeline calls it). -/
def isArtifact (text : String) : Bool := detectRepetitionArtifacts 3 text

/-! ## Chunker lemmas -/

theorem runLen_le_length (p : Char → Bool) (l : List Char) : runLen p l ≤ l.length := by
  induction l with
  | nil => simp [runLen]
  | cons c cs ih => by_cases h : p c <;> simp [runLen, h] <;> omega

theorem length_dropWhile_le (p : Char → Bool) (l : List Char) :
    (l.dropWhile p).length ≤ l.length := by
  induction l with
  | nil => simp [List.dropWhile]
  | cons c cs ih => by_cases h : p c <;> simp [List.dropWhile, h] <;> omega

theorem pyStrip_length_le (cs : List Char) : (pyStrip cs).length ≤ cs.length := by
  unfold pyStrip
  calc ((cs.dropWhile pyIsSpace).reverse.dropWhile pyIsSpace).reverse.length
      = ((cs.dropWhile pyIsSpace).reverse.dropWhile pyIsSpace).length := by
        simp
    _ ≤ (cs.dropWhile pyIsSpace).reverse.length := length_dropWhile_le ..
    _ = (cs.dropWhile pyIsSpace).length := by simp
    _ ≤ cs.length := length_dropWhile_le ..

theorem nonWs_dropWhile (cs : List Char) :
    nonWs (cs.dropWhile pyIsSpace) = nonWs cs := by
  induction cs with
  | nil => rfl
  | cons c cs ih =>
    simp only [nonWs] at ih ⊢
    by_cases h : pyIsSpace c <;> simp [List.dropWhile, h, List.filter, ih]

theorem nonWs_pyStrip (cs : List Char) : nonWs (pyStrip cs) = nonWs cs := by
  have hrev : ∀ l : List Char, nonWs l.reverse = (nonWs l).reverse := by
    intro l; simp only [nonWs]; exact List.filter_reverse ..
  unfold pyStrip
  rw [hrev, nonWs_dropWhile, hrev, List.reverse_reverse, nonWs_dropWhile]

theorem nonWs_append (a b : List Char) : nonWs (a ++ b) = nonWs a ++ nonWs b :=
  List.filter_append ..

theorem nonWs_joinSp_cons (a : List Char) (l : List (List Char)) :
    nonWs (joinSp (a :: l)) = nonWs a ++ nonWs (joinSp l) := by
  cases l with
  | nil => simp [joinSp, nonWs]
  | cons b bs =>
    show nonWs (a ++ ' ' :: joinSp (b :: bs)) = _
    rw [nonWs_append]
    simp [nonWs, List.filter, pyIsSpace]

theorem lastBreakEndAux_bound (punct : Char → Bool) :
    ∀ (cs : List Char) (i : Nat) (best : Option Nat) (e : Nat),
      (∀ e', best = some e' → 1 ≤ e' ∧ e' ≤ i + cs.length) →
      lastBreakEndAux punct i best cs = some e → 1 ≤ e ∧ e ≤ i + cs.length := by
  intro cs
  induction cs with
  | nil => intro i best e hb h; exact hb e h
  | cons c cs ih =>
    intro i best e hb h
    simp only [lastBreakEndAux] at h
    have hside : ∀ e', (if punct c && decide (1 ≤ runLen pyIsSpace cs)
        then some (i + 1 + runLen pyIsSpace cs) else best) = some e' →
        1 ≤ e' ∧ e' ≤ (i + 1) + cs.length := by
      intro e' he'
      split at he'
      · cases he'
        have := runLen_le_length pyIsSpace cs
        omega
      · have := hb e' he'
        simp only [List.length_cons] at this
        omega
    have h' := ih (i + 1) _ e hside h
    simp only [List.length_cons]
    omega

theorem lastBreakEnd_bound (punct : Char → Bool) (w : List Char) (e : Nat)
    (h : lastBreakEnd punct w = some e) : 1 ≤ e ∧ e ≤ w.length := by
  have := lastBreakEndAux_bound punct w 0 none e (by intro e' h'; cases h') h
  omega

theorem rfindCharAux_bound (x : Char) :
    ∀ (cs : List Char) (i : Nat) (best : Option Nat) (e : Nat),
      (∀ e', best = some e' → e' < i + cs.length) →
      rfindCharAux x i best cs = some e → e < i + cs.length := by
  intro cs
  induction cs with
  | nil => intro i best e hb h; exact hb e h
  | cons c cs ih =>
    intro i best e hb h
    simp only [rfindCharAux] at h
    have hside : ∀ e', (if c = x then some i else best) = some e' →
        e' < (i + 1) + cs.length := by
      intro e' he'
      split at he'
      · cases he'; omega
      · have := hb e' he'
        simp only [List.length_cons] at this
        omega
    have h' := ih (i + 1) _ e hside h
    simp only [List.length_cons]
    omega

theorem rfindChar_bound (x : Char) (w : List Char) (e : Nat)
    (h : rfindChar x w = some e) : e < w.length := by
  have := rfindCharAux_bound x w 0 none e (by intro e' h'; cases h') h
  omega

theorem splitPos_le (maxChars : Nat) (rem : List Char) :
    splitPos maxChars rem ≤ maxChars := by
  unfold splitPos
  have hw : (rem.take maxChars).length ≤ maxChars := by
    rw [List.length_take]; omega
  split
  · rename_i e h; have := lastBreakEnd_bound _ _ _ h; omega
  · split
    · rename_i e h; have := lastBreakEnd_bound _ _ _ h; omega
    · split
      · rename_i i h
        have := rfindChar_bound _ _ _ h
        split <;> omega
      · omega

theorem splitPos_pos (maxChars : Nat) (rem : List Char) (hmc : 1 ≤ maxChars) :
    1 ≤ splitPos maxChars rem := by
  unfold splitPos
  split
  · rename_i e h; exact (lastBreakEnd_bound _ _ _ h).1
  · split
    · rename_i e h; exact (lastBreakEnd_bound _ _ _ h).1
    · split
      · rename_i i h; split <;> omega
      · omega

theorem splitLoop_chunk_le (maxChars : Nat) :
    ∀ (fuel : Nat) (rem : List Char) (chunks : List (List Char)),
      splitLoop maxChars fuel rem = some chunks →
      ∀ c ∈ chunks, c.length ≤ maxChars := by
  intro fuel
  induction fuel with
  | zero =>
    intro rem chunks h c hc
    simp only [splitLoop] at h
    split at h
    · cases h; cases hc
    · cases h
  | succ fuel ih =>
    intro rem chunks h c hc
    simp only [splitLoop] at h
    split at h
    · cases h; cases hc
    · split at h
      · rename_i hne hle
        cases h
        rw [List.mem_singleton.mp hc]
        exact hle
      · split at h
        · cases h
        · rename_i cs hcs
          cases h
          rcases List.mem_cons.mp hc with rfl | hmem
          · calc (pyStrip (rem.take (splitPos maxChars rem))).length
                ≤ (rem.take (splitPos maxChars rem)).length := pyStrip_length_le _
              _ ≤ splitPos maxChars rem := by rw [List.length_take]; omega
              _ ≤ maxChars := splitPos_le ..
          · exact ih _ cs hcs c hmem

theorem splitLoop_nonWs (maxChars : Nat) :
    ∀ (fuel : Nat) (rem : List Char) (chunks : List (List Char)),
      splitLoop maxChars fuel rem = some chunks →
      nonWs (joinSp chunks) = nonWs rem := by
  intro fuel
  induction fuel with
  | zero =>
    intro rem chunks h
    simp only [splitLoop] at h
    split at h
    · rename_i he; cases h; simp [he, joinSp]
    · cases h
  | succ fuel ih =>
    intro rem chunks h
    simp only [splitLoop] at h
    split at h
    · rename_i he; cases h; simp [he, joinSp]
    · split at h
      · cases h; simp [joinSp]
      · split at h
        · cases h
        · rename_i cs hcs
          cases h
          rw [nonWs_joinSp_cons, nonWs_pyStrip, ih _ cs hcs, nonWs_pyStrip,
            ← nonWs_append, List.take_append_drop]

theorem splitLoop_total (maxChars : Nat) (hmc : 1 ≤ maxChars) :
    ∀ (fuel : Nat) (rem : List Char), rem.length < fuel →
      (splitLoop maxChars fuel rem).isSome := by
  intro fuel
  induction fuel with
  | zero => intro rem h; omega
  | succ fuel ih =>
    intro rem h
    simp only [splitLoop]
    split
    · rfl
    · split
      · rfl
      · rename_i hne hlen
        have hpos : 1 ≤ splitPos maxChars rem := splitPos_pos _ _ hmc
        have hrest : (pyStrip (rem.drop (splitPos maxChars rem))).length < fuel := by
          have h1 := pyStrip_length_le (rem.drop (splitPos maxChars rem))
          have h2 : (rem.drop (splitPos maxChars rem)).length
              = rem.length - splitPos maxChars rem := List.length_drop ..
          have h3 : maxChars < rem.length := by omega
          omega
        have := ih _ hrest
        split
        · rename_i hnone; rw [hnone] at this; cases this
        · rfl

/-! ## Concrete data for the assembler scenario -/

/-- A 500-character initial generation result. -/
def initial500 : String := String.mk (List.replicate 500 'a')

/-- Continuation calls that always return 250 characters (below the 300-char
viability floor). -/
def contin250 : Nat → String := fun _ => String.mk (List.replicate 250 'b')

/-- C1 claim, as stated: with target minimum 1000, initial 500 chars and a
first continuation of 250 chars, the result allegedly has total length 750.
In the source the viability check `len(continuation) < 300` runs *before*
the append, so the 250-char continuation is discarded and the total stays
500. -/
theorem C1_counterexample :
    (generateDetailedScript 1000 5 initial500 contin250).2 = 1 ∧
    (generateDetailedScript 1000 5 initial500 contin250).1.length = 500 ∧
    ¬ (generateDetailedScript 1000 5 initial500 contin250).1.length = 750 := by
  refine ⟨by decide, by decide, by decide⟩

/-- C1 (amended): if the initial text is below the target minimum, at least
one continuation is allowed, and the first continuation is shorter than the
300-character viability floor, then the loop stops after exactly 1
continuation attempt without failing and returns the *initial* text
unchanged — the short continuation is not appended (total length stays at
the initial length, 500 in the scenario, not 750). -/
theorem C1_assembler_short_continuation
    (minLength maxContinuations : Nat) (init : String) (cont : Nat → String)
    (hinit : init.length < minLength) (hmax : 1 ≤ maxContinuations)
    (hcont : (cont 1).length < 300) :
    generateDetailedScript minLength maxContinuations init cont = (init, 1) := by
  unfold generateDetailedScript
  cases maxContinuations with
  | zero => omega
  | succ fuel => simp [scriptLoop, hinit, hcont]

/-- Witness for `C1_assembler_short_continuation` at the scenario's numbers. -/
theorem C1_assembler_short_continuation_witness :
    generateDetailedScript 1000 5 initial500 contin250 = (initial500, 1) :=
  C1_assembler_short_continuation 1000 5 initial500 contin250
    (by decide) (by decide) (by decide)

/-- A failing continuation response. -/
def contFailResp : HttpResponse := ⟨500, "boom", "payload"⟩

/-- C6 claim, as stated: every failing external call is surfaced as an error.
For continuation calls this is false: `_call_llm_continuation` converts a
non-200 status into the empty string, and the assembly loop then ends
normally — the run below has a failing continuation call yet returns a
non-error result. -/
theorem C6_counterexample :
    contFailResp.status ≠ 200 ∧
    callLLMContinuation contFailResp = "" ∧
    generateDetailedScriptHttp 1000 5 ⟨200, "", initial500⟩ (fun _ => contFailResp)
      = .ok (initial500, 1) := by
  refine ⟨by decide, by decide, rfl⟩

/-- C6 (amended): a failing *initial* call is surfaced as an error and never
converted into a result, while a failing *continuation* call is converted
into the empty string (which merely ends the loop early); neither call is
retried. -/
theorem C6_failure_handling (resp : HttpResponse) (h : resp.status ≠ 200) :
    callLLM resp = .error ("Ollama API error: " ++ resp.errText) ∧
    callLLMContinuation resp = "" := by
  unfold callLLM callLLMContinuation
  rw [if_pos h, if_pos h]
  exact ⟨rfl, rfl⟩

/-- Witness for `C6_failure_handling` at a concrete failing response. -/
theorem C6_failure_handling_witness :
    callLLM ⟨500, "boom", "payload"⟩ = .error "Ollama API error: boom" ∧
    callLLMContinuation ⟨500, "boom", "payload"⟩ = "" :=
  C6_failure_handling ⟨500, "boom", "payload"⟩ (by decide)

/-! ## Chunker claim theorems -/

theorem splitLongTextL_spec (td : List Char) (mc : Nat) (l : List (List Char))
    (h : splitLongTextL td mc = some l) :
    (∀ c ∈ l, c.length ≤ mc) ∧ nonWs (joinSp l) = nonWs td := by
  unfold splitLongTextL at h
  split at h
  · rename_i hle
    cases h
    constructor
    · intro c hc
      rw [List.mem_singleton.mp hc]
      exact hle
    · simp [joinSp]
  · exact ⟨splitLoop_chunk_le mc _ _ l h,
      (splitLoop_nonWs mc _ _ l h).trans (nonWs_pyStrip td)⟩

/-- C4: whenever the chunker returns (it does for every positive budget, see
`C5_chunker_terminates_pos`), every chunk is within `maxChars` and joining
the chunks with single spaces preserves exactly the non-whitespace characters
of the input, in order. -/
theorem C4_chunker_bounds_and_content (text : String) (maxChars : Nat)
    (chunks : List String) (h : splitLongText text maxChars = some chunks) :
    (∀ c ∈ chunks, c.length ≤ maxChars) ∧
    nonWs (joinSp (chunks.map String.data)) = nonWs text.data := by
  unfold splitLongText at h
  cases hL : splitLongTextL text.data maxChars with
  | none => rw [hL] at h; cases h
  | some l =>
    rw [hL] at h
    simp only [Option.map] at h
    cases h
    have hspec := splitLongTextL_spec text.data maxChars l hL
    have hdata : ∀ m : List (List Char), (m.map List.asString).map String.data = m := by
      intro m
      induction m with
      | nil => rfl
      | cons a as ih => simp only [List.map_cons, ih, List.asString]
    constructor
    · intro c hc
      rcases List.mem_map.mp hc with ⟨d, hd, rfl⟩
      show (List.asString d).data.length ≤ maxChars
      exact hspec.1 d hd
    · rw [hdata l]
      exact hspec.2

/-- Witness for `C4_chunker_bounds_and_content` at a concrete split. -/
theorem C4_chunker_witness :
    splitLongText "aa bb. cc dd" 6 = some ["aa bb.", "cc dd"] ∧
    (∀ c ∈ ["aa bb.", "cc dd"], String.length c ≤ 6) ∧
    nonWs (joinSp (["aa bb.", "cc dd"].map String.data)) = nonWs "aa bb. cc dd".data :=
  ⟨by decide, (C4_chunker_bounds_and_content "aa bb. cc dd" 6 _ (by decide)).1,
    (C4_chunker_bounds_and_content "aa bb. cc dd" 6 _ (by decide)).2⟩

/-- The chunking loop makes no progress with a zero budget: on `"ab"` every
iteration hard-cuts at position 0 and re-enters with the same remainder, so
no amount of fuel finishes — the Python `while` loop runs forever. -/
theorem splitLoop_zero_stuck : ∀ fuel : Nat, splitLoop 0 fuel ['a', 'b'] = none := by
  intro fuel
  induction fuel with
  | zero => rfl
  | succ fuel ih =>
    show splitLoop 0 (fuel + 1) ['a', 'b'] = none
    have hk : pyStrip (List.drop (splitPos 0 ['a', 'b']) ['a', 'b']) = ['a', 'b'] := by
      decide
    simp only [splitLoop, hk, ih]
    decide

/-- Divergence of the chunker on a given remainder/budget: no fuel bound
makes the loop finish. -/
def chunkerLoopsForever (remaining : List Char) (maxChars : Nat) : Prop :=
  ∀ fuel : Nat, splitLoop maxChars fuel remaining = none

/-- C5 claim, as stated, is false at `maxChars = 0`: on input `"ab"` the loop
never terminates (each iteration appends an empty chunk and leaves the
remainder unchanged), rather than degrading to hard cuts. -/
theorem C5_counterexample :
    chunkerLoopsForever ['a', 'b'] 0 ∧ splitLongText "ab" 0 = none := by
  constructor
  · exact splitLoop_zero_stuck
  · show (splitLongTextL ['a', 'b'] 0).map _ = none
    unfold splitLongTextL
    rw [if_neg (by decide)]
    have hst : pyStrip ['a', 'b'] = ['a', 'b'] := by decide
    rw [hst, splitLoop_zero_stuck]
    rfl

/-- C5 (amended): the chunker terminates for every input text and every
`maxChars ≥ 1` — with any positive budget each iteration strictly consumes
input, degrading to hard cuts at the limit when no boundary fits; only the
degenerate budget `maxChars = 0` loops forever. -/
theorem C5_chunker_terminates_pos (text : String) (maxChars : Nat)
    (hmc : 1 ≤ maxChars) : (splitLongText text maxChars).isSome := by
  unfold splitLongText splitLongTextL
  split
  · rfl
  · have hlen : (pyStrip text.data).length < text.data.length + 1 :=
      Nat.lt_succ_of_le (pyStrip_length_le _)
    have htot := splitLoop_total maxChars hmc (text.data.length + 1) (pyStrip text.data) hlen
    cases hsp : splitLoop maxChars (text.data.length + 1) (pyStrip text.data) with
    | none => rw [hsp] at htot; cases htot
    | some l => rfl

/-- Witness for `C5_chunker_terminates_pos`. -/
theorem C5_chunker_terminates_witness :
    (splitLongText "hello world this is long" 3).isSome :=
  C5_chunker_terminates_pos "hello world this is long" 3 (by decide)

/-! ## Artifact-detector claim theorem -/

/-- C8: the detector flags `"tak tak tak tak tak"`, passes
`"to jest normalny tekst"`, and in general any unbroken run of more than 3
consecutive identical words of length ≥ 2 (a window of 4 equal words in the
lower-cased token list) forces a positive verdict. -/
theorem C8_artifact_detector :
    isArtifact "tak tak tak tak tak" = true ∧
    isArtifact "to jest normalny tekst" = false ∧
    ∀ (text : String) (i : Nat) (w : List Char),
      2 ≤ w.length →
      ((pySplit (pyLower text.data)).drop i).take 4 = [w, w, w, w] →
      isArtifact text = true := by
  refine ⟨by decide, by decide, ?_⟩
  intro text i w hw h
  have hb2 : detectWordRun 3 (pySplit (pyLower text.data)) = true := by
    have hlen : 4 ≤ (pySplit (pyLower text.data)).length - i := by
      have hl := congrArg List.length h
      simp only [List.length_take, List.length_drop, List.length_cons,
        List.length_nil] at hl
      omega
    have hhead : ((pySplit (pyLower text.data)).drop i).headD [] = w := by
      cases hdi : (pySplit (pyLower text.data)).drop i with
      | nil => rw [hdi] at h; cases h
      | cons a t =>
        rw [hdi] at h
        simp only [List.take_succ_cons, List.cons.injEq] at h
        simp [h.1]
    unfold detectWordRun
    rw [if_pos (by omega)]
    apply List.any_eq_true.mpr
    refine ⟨i, List.mem_range.mpr (by omega), ?_⟩
    have h4 : (3 : Nat) + 1 = 4 := rfl
    rw [h4, h, hhead]
    simp [allEqualTok, hw]
  simp [isArtifact, detectRepetitionArtifacts, hb2]

/-- Witness for the universally quantified part of `C8_artifact_detector`. -/
theorem C8_artifact_detector_witness : isArtifact "ha ha ha ha" = true :=
  C8_artifact_detector.2.2 "ha ha ha ha" 0 ['h', 'a'] (by decide) (by decide)

/-! ## Data model (`models.py`)

`Speaker` is the closed two-valued enumeration; `Segment` keeps the fields
the parsing pipeline touches (the `audio_path`/`duration_seconds` fields are
synthesis-side annotations never read or written by the functions modelled
here). -/

inductive Speaker where
  | HOST
  | CO_HOST
deriving DecidableEq, Repr

structure Segment where
  speaker : Speaker
  text : String
deriving DecidableEq, Repr

/-! ## Segment Parser (`_parse_script`, script_generator.py 201-276)

Each `re.findall` pattern becomes a scanner.  All patterns use `re.DOTALL`;
patterns 5 and 6 also use `re.MULTILINE`.  A lazy group `(.+?)` followed by a
lookahead ends at the first qualifying stop position; the separator runs
(`\s*` / `[:\s]+`) are greedy but back off by exactly one character when they
would otherwise swallow the whole remainder (the lazy group needs at least
one character and `$`/`\Z` always qualifies at the end), which is the `min r
(m - 1)` below.  With `$` (no MULTILINE) a stop position is also just before
a final newline, hence the `d = ['\n']` disjunct. -/

/-- `[:\s]` -/
def sepColonWs (c : Char) : Bool := c = ':' || pyIsSpace c

/-- First position `k ≥ j` (position of suffix `d`) whose suffix satisfies
`stop`; the end of input always stops (`$` and `\Z` both hold there). -/
def findStop (stop : List Char → Bool) : Nat → List Char → Nat
  | j, [] => j
  | j, c :: d => if stop (c :: d) then j else findStop stop (j + 1) d

/-- `\s*(.+?)(?=stop)` after a tag: greedy whitespace, then the shortest
non-empty span ending at a stop position. -/
def lazyTailStar (stop : List Char → Bool) (rest : List Char) :
    Option (List Char × List Char) :=
  if rest.length = 0 then none
  else
    let j1 := min (runLen pyIsSpace rest) (rest.length - 1)
    let k := findStop stop (j1 + 1) (rest.drop (j1 + 1))
    some ((rest.drop j1).take (k - j1), rest.drop k)

/-- `sep+(.+?)(?=stop)`: like `lazyTailStar` but the separator run must be
non-empty, and one character must remain for the lazy group. -/
def lazyTailPlus (sep : Char → Bool) (stop : List Char → Bool) (rest : List Char) :
    Option (List Char × List Char) :=
  let r := runLen sep rest
  if r = 0 then none
  else if rest.length ≤ 1 then none
  else
    let j1 := min r (rest.length - 1)
    let k := findStop stop (j1 + 1) (rest.drop (j1 + 1))
    some ((rest.drop j1).take (k - j1), rest.drop k)

/-- Generic `re.findall` scan: try a match at every position, left to right,
non-overlapping; `fuel` is at least the input length plus one. -/
def scanFindall {α : Type} (tryAt : List Char → Option (α × List Char)) :
    Nat → List Char → List α
  | 0, _ => []
  | _, [] => []
  | fuel + 1, c :: cs =>
    match tryAt (c :: cs) with
    | some (x, rest) => x :: scanFindall tryAt fuel rest
    | none => scanFindall tryAt fuel cs

/-- Pattern 1 tag `\[(HOST|CO-HOST)\]`. -/
def p1TagAt (cs : List Char) : Option (String × Nat) :=
  if List.isPrefixOf "[HOST]".data cs then some ("HOST", 6)
  else if List.isPrefixOf "[CO-HOST]".data cs then some ("CO-HOST", 9)
  else none

def stop1 (d : List Char) : Bool := (p1TagAt d).isSome || d = ['\n']

def try1 (cs : List Char) : Option ((String × List Char) × List Char) :=
  match p1TagAt cs with
  | none => none
  | some (sp, L) =>
    match lazyTailStar stop1 (cs.drop L) with
    | none => none
    | some (grp, rest) => some ((sp, grp), rest)

/-- `re.findall(r'\[(HOST|CO-HOST)\]\s*(.+?)(?=\[(?:HOST|CO-HOST)\]|$)', ·, DOTALL)` -/
def findall1 (cs : List Char) : List (String × List Char) :=
  scanFindall try1 (cs.length + 1) cs

/-- Pattern 2 tag `\*\*(HOST|CO-HOST)\*\*`. -/
def p2TagAt (cs : List Char) : Option (String × Nat) :=
  if List.isPrefixOf "**HOST**".data cs then some ("HOST", 8)
  else if List.isPrefixOf "**CO-HOST**".data cs then some ("CO-HOST", 11)
  else none

def stop2 (d : List Char) : Bool := (p2TagAt d).isSome || d = ['\n']

def try2 (cs : List Char) : Option ((String × List Char) × List Char) :=
  match p2TagAt cs with
  | none => none
  | some (sp, L) =>
    match lazyTailPlus sepColonWs stop2 (cs.drop L) with
    | none => none
    | some (grp, rest) => some ((sp, grp), rest)

def findall2 (cs : List Char) : List (String × List Char) :=
  scanFindall try2 (cs.length + 1) cs

/-- Lookahead of patterns 3/4: `\*\*(?:Host|Co-Host|HOST|CO-HOST)` (no
closing stars). -/
def stop34 (d : List Char) : Bool :=
  List.isPrefixOf "**Host".data d || List.isPrefixOf "**Co-Host".data d ||
    List.isPrefixOf "**HOST".data d || List.isPrefixOf "**CO-HOST".data d ||
    d = ['\n']

/-- Head of patterns 3/4:
`\*\*(?:lab1|lab2)\s*\([HC]\)\*?\*?` — returns the remainder after the
optional stars (`\*?\*?` consumes at most two). -/
def p34HeadAt (lab1 lab2 : List Char) (cs : List Char) : Option (List Char) :=
  if List.isPrefixOf "**".data cs then
    let d1 := cs.drop 2
    let L :=
      if List.isPrefixOf lab1 d1 then some lab1.length
      else if List.isPrefixOf lab2 d1 then some lab2.length
      else none
    match L with
    | none => none
    | some L =>
      let d2 := d1.drop L
      match d2.drop (runLen pyIsSpace d2) with
      | '(' :: c2 :: ')' :: d6 =>
        if c2 = 'H' || c2 = 'C' then some (d6.drop (min (runLen (· = '*') d6) 2))
        else none
      | _ => none
  else none

def try34 (lab1 lab2 : List Char) (sp : String) (cs : List Char) :
    Option ((String × List Char) × List Char) :=
  match p34HeadAt lab1 lab2 cs with
  | none => none
  | some rest =>
    match lazyTailPlus sepColonWs stop34 rest with
    | none => none
    | some (grp, after) => some ((sp, grp), after)

/-- Pattern 3: single-speaker `HOST` variant (Qwen style). -/
def findall3 (cs : List Char) : List (String × List Char) :=
  scanFindall (try34 "Host".data "HOST".data "HOST") (cs.length + 1) cs

/-- Pattern 4: single-speaker `CO-HOST` variant. -/
def findall4 (cs : List Char) : List (String × List Char) :=
  scanFindall (try34 "Co-Host".data "CO-HOST".data "CO-HOST") (cs.length + 1) cs

/-! Patterns 5 and 6 are MULTILINE-anchored (`^` at the start of a line) and
their lookaheads require a line start, so the scan threads "previous
character was a newline". Their end-of-text anchor is `\Z` (absolute end),
not `$`. -/

def headSep (d : List Char) : Bool :=
  match d with
  | c :: _ => sepColonWs c
  | [] => false

/-- First position `k ≥ j` at a line start whose suffix satisfies `look`, or
the end of input (`\Z`); also returns whether that position is a line start. -/
def findStopML (look : List Char → Bool) : Nat → Char → List Char → Nat × Bool
  | j, prev, [] => (j, prev = '\n')
  | j, prev, c :: d =>
    if prev = '\n' && look (c :: d) then (j, true)
    else findStopML look (j + 1) c d

/-- `sep+(.+?)(?=^look|\Z)` under MULTILINE. -/
def lazyTailPlusML (sep : Char → Bool) (look : List Char → Bool) (rest : List Char) :
    Option (List Char × List Char × Bool) :=
  let r := runLen sep rest
  if r = 0 then none
  else if rest.length ≤ 1 then none
  else
    let j1 := min r (rest.length - 1)
    match rest.drop j1 with
    | [] => none
    | pc :: d' =>
      let kls := findStopML look (j1 + 1) pc d'
      some ((rest.drop j1).take (kls.1 - j1), rest.drop kls.1, kls.2)

/-- `re.findall` scan for line-anchored patterns: a match may only start at a
line start; `tryAt` also reports whether the position after the match is a
line start. -/
def scanFindallML {α : Type} (tryAt : List Char → Option (α × List Char × Bool)) :
    Nat → Bool → List Char → List α
  | 0, _, _ => []
  | _, _, [] => []
  | fuel + 1, atLS, c :: cs =>
    if atLS then
      match tryAt (c :: cs) with
      | some (x, rest, ls) => x :: scanFindallML tryAt fuel ls rest
      | none => scanFindallML tryAt fuel (c = '\n') cs
    else scanFindallML tryAt fuel (c = '\n') cs

/-- Pattern 5 head `(HOST|CO-HOST)` at a line start. -/
def p5HeadAt (cs : List Char) : Option (String × Nat) :=
  if List.isPrefixOf "HOST".data cs then some ("HOST", 4)
  else if List.isPrefixOf "CO-HOST".data cs then some ("CO-HOST", 7)
  else none

/-- Lookahead `^(?:HOST|CO-HOST)[:\s]`. -/
def look5 (d : List Char) : Bool :=
  (List.isPrefixOf "HOST".data d && headSep (d.drop 4)) ||
    (List.isPrefixOf "CO-HOST".data d && headSep (d.drop 7))

def try5 (cs : List Char) : Option ((String × List Char) × List Char × Bool) :=
  match p5HeadAt cs with
  | none => none
  | some (sp, L) =>
    match lazyTailPlusML sepColonWs look5 (cs.drop L) with
    | none => none
    | some (grp, rest, ls) => some ((sp, grp), rest, ls)

/-- `re.findall(r'^(HOST|CO-HOST)[:\s]+(.+?)(?=^(?:HOST|CO-HOST)[:\s]|\Z)',
·, DOTALL|MULTILINE)` -/
def findall5 (cs : List Char) : List (String × List Char) :=
  scanFindallML try5 (cs.length + 1) true cs

/-- Lookahead `^[HC][:\s]`. -/
def look6 (d : List Char) : Bool :=
  match d with
  | c :: rest => (c = 'H' || c = 'C') && headSep rest
  | [] => false

def try6 (cs : List Char) : Option ((String × List Char) × List Char × Bool) :=
  match cs with
  | [] => none
  | c :: _ =>
    if c = 'H' || c = 'C' then
      match lazyTailPlusML sepColonWs look6 (cs.drop 1) with
      | none => none
      | some (grp, rest, ls) =>
        some ((if c = 'H' then "HOST" else "CO-HOST", grp), rest, ls)
    else none

/-- `re.findall(r'^([HC])[:\s]+(.+?)(?=^[HC][:\s]|\Z)', ·, DOTALL|MULTILINE)`,
with `H → HOST`, `C → CO-HOST` as in the `short` option branch. -/
def findall6 (cs : List Char) : List (String × List Char) :=
  scanFindallML try6 (cs.length + 1) true cs

/-- Lookahead of the loose pattern: `\*\*[^*]+\*\*`. -/
def lookLoose (d : List Char) : Bool :=
  List.isPrefixOf "**".data d &&
    (1 ≤ runLen (· ≠ '*') (d.drop 2) &&
      List.isPrefixOf "**".data ((d.drop 2).drop (runLen (· ≠ '*') (d.drop 2))))

def tryLoose (cs : List Char) : Option ((List Char × List Char) × List Char) :=
  if List.isPrefixOf "**".data cs then
    let d := cs.drop 2
    let q := runLen (· ≠ '*') d
    if 1 ≤ q && List.isPrefixOf "**".data (d.drop q) then
      match lazyTailPlus sepColonWs lookLoose (d.drop (q + 2)) with
      | none => none
      | some (grp, rest) => some ((d.take q, grp), rest)
    else none
  else none

/-- `re.findall(r'\*\*([^*]+)\*\*[:\s]+(.+?)(?=\*\*[^*]+\*\*|\Z)', ·, DOTALL)` -/
def findallLoose (cs : List Char) : List (List Char × List Char) :=
  scanFindall tryLoose (cs.length + 1) cs

/-- Python's `pat in s` substring test. -/
def isSubstr (pat : List Char) : List Char → Bool
  | [] => pat = []
  | c :: cs => List.isPrefixOf pat (c :: cs) || isSubstr pat cs

/-- The loose fallback's label classification (script_generator.py 245-250):
`'host' in label and 'co' not in label → HOST`, else
`'co' in label or 'guest' in label → CO-HOST`, else dropped. -/
def looseClassify (found : List (List Char × List Char)) :
    List (String × List Char) :=
  found.filterMap fun p =>
    let sl := pyLower p.1
    if isSubstr "host".data sl && ! isSubstr "co".data sl then
      some ("HOST", p.2)
    else if isSubstr "co".data sl || isSubstr "guest".data sl then
      some ("CO-HOST", p.2)
    else none

/-- The cascade (script_generator.py 220-250): the first pattern with a
non-empty `findall` wins; if none matched, the loose pattern's classified
matches are used. -/
def parseMatches (cs : List Char) : List (String × List Char) :=
  let m1 := findall1 cs
  if m1 ≠ [] then m1 else
  let m2 := findall2 cs
  if m2 ≠ [] then m2 else
  let m3 := findall3 cs
  if m3 ≠ [] then m3 else
  let m4 := findall4 cs
  if m4 ≠ [] then m4 else
  let m5 := findall5 cs
  if m5 ≠ [] then m5 else
  let m6 := findall6 cs
  if m6 ≠ [] then m6 else
  looseClassify (findallLoose cs)

/-! ### Post-match cleanup (script_generator.py 263-270) -/

/-- Lazy search for `]\*\*` with no interleaving newline
(the `.*?` of `\*\*\[.*?\]\*\*` cannot cross a line). -/
def findCloseBB : List Char → Option Nat
  | [] => none
  | c :: cs =>
    if List.isPrefixOf "]**".data (c :: cs) then some 0
    else if c = '\n' then none
    else (findCloseBB cs).map (· + 1)

/-- `re.sub(r'\*\*\[.*?\]\*\*', '', ·)` -/
def removeBoldBracket : Nat → List Char → List Char
  | 0, cs => cs
  | _, [] => []
  | fuel + 1, c :: cs =>
    if List.isPrefixOf "**[".data (c :: cs) then
      match findCloseBB ((c :: cs).drop 3) with
      | some j => removeBoldBracket fuel (((c :: cs).drop 3).drop (j + 3))
      | none => c :: removeBoldBracket fuel cs
    else c :: removeBoldBracket fuel cs

/-- `re.sub(r'\*\*', '', ·)` (removing star pairs one at a time removes the
same characters). -/
def removeDoubleStars : List Char → List Char
  | '*' :: '*' :: cs => removeDoubleStars cs
  | c :: cs => c :: removeDoubleStars cs
  | [] => []

/-- `re.sub(r'^\*+\s*', '', ·)` (no MULTILINE: start of string only). -/
def removeLeadStars (cs : List Char) : List Char :=
  let r := runLen (· = '*') cs
  if r = 0 then cs else (cs.drop r).drop (runLen pyIsSpace (cs.drop r))

/-- `re.sub(r'\s*\*+$', '', ·)`.  `$` is the end of the string or just before
a final newline; the star run must end exactly there, and the whitespace run
before it is greedy.  At most one match exists. -/
def removeTrailStars (cs : List Char) : List Char :=
  match cs.getLast? with
  | some '\n' =>
    let rcore := cs.dropLast.reverse
    let rs := runLen (· = '*') rcore
    if rs = 0 then cs
    else ((rcore.drop (rs + runLen pyIsSpace (rcore.drop rs))).reverse) ++ ['\n']
  | _ =>
    let rcore := cs.reverse
    let rs := runLen (· = '*') rcore
    if rs = 0 then cs
    else (rcore.drop (rs + runLen pyIsSpace (rcore.drop rs))).reverse

/-- Tail of `\s+(?:jest|to|są)\s*$` after the whitespace: one of the three
words followed only by whitespace up to the end. -/
def copulaTailAt (d : List Char) : Bool :=
  (List.isPrefixOf "jest".data d && (d.drop 4).all pyIsSpace) ||
    (List.isPrefixOf "to".data d && (d.drop 2).all pyIsSpace) ||
    (List.isPrefixOf "są".data d && (d.drop 2).all pyIsSpace)

def copulaAt (cs : List Char) : Bool :=
  1 ≤ runLen pyIsSpace cs && copulaTailAt (cs.drop (runLen pyIsSpace cs))

/-- Leftmost start of a `\s+(?:jest|to|są)\s*$` match. -/
def copulaIdx : List Char → Option Nat
  | [] => none
  | c :: cs => if copulaAt (c :: cs) then some 0 else (copulaIdx cs).map (· + 1)

/-- `re.sub(r'\s+(?:jest|to|są)\s*$', '.', ·)` -/
def copulaFix (cs : List Char) : List Char :=
  match copulaIdx cs with
  | some s => cs.take s ++ ['.']
  | none => cs

/-- The per-span cleanup chain (script_generator.py 263-270), `strip` after
each removal as in the source. -/
def cleanupSpan (t : List Char) : List Char :=
  let t0 := pyStrip t
  let t1 := pyStrip (removeBoldBracket (t0.length + 1) t0)
  let t2 := pyStrip (removeDoubleStars t1)
  let t3 := pyStrip (removeLeadStars t2)
  let t4 := pyStrip (removeTrailStars t3)
  copulaFix t4

/-- The match-emission loop (script_generator.py 261-273): clean each span,
skip it unless non-empty and longer than 10 characters; `speaker_str ==
"HOST"` selects `HOST`, anything else `CO_HOST`. -/
def buildSegments (ms : List (String × List Char)) : List Segment :=
  ms.filterMap fun m =>
    let ct := cleanupSpan m.2
    if ct ≠ [] ∧ 10 < ct.length then
      some ⟨if m.1 = "HOST" then Speaker.HOST else Speaker.CO_HOST, String.mk ct⟩
    else none

/-! ### Last-resort fallback (script_generator.py 252-259) -/

/-- Python `raw.split('\n\n')`: exact, non-overlapping separator split. -/
def splitParasAux (acc : List Char) : List Char → List (List Char)
  | '\n' :: '\n' :: cs => acc.reverse :: splitParasAux [] cs
  | c :: cs => splitParasAux (c :: acc) cs
  | [] => [acc.reverse]

def splitParas (cs : List Char) : List (List Char) := splitParasAux [] cs

def startsWith (c : Char) : List Char → Bool
  | x :: _ => x = c
  | [] => false

/-- The fallback: paragraphs whose *strip* is non-empty and whose *unstripped*
text does not start with `#` or `*`, first 20, speakers alternating from
`HOST`. -/
def fallbackSegments (cs : List Char) : List Segment :=
  let paras := (splitParas cs).filterMap fun l =>
    if pyStrip l ≠ [] ∧ startsWith '#' l = false ∧ startsWith '*' l = false then
      some (pyStrip l)
    else none
  (paras.take 20).enum.map fun p =>
    ⟨if p.1 % 2 = 0 then Speaker.HOST else Speaker.CO_HOST, String.mk p.2⟩

/-- `_parse_script`. -/
def parseScript (raw : String) : List Segment :=
  let ms := parseMatches raw.data
  if ms ≠ [] then buildSegments ms
  else fallbackSegments raw.data

/-! ## Parser claim theorems -/

/-- C3 claim, as stated: every strategy's spans get the post-match cleanup
and no emitted segment is ≤ 10 characters.  False for the last-resort
paragraph fallback: `"abc"` matches no pattern and no loose label, so the
fallback emits the stripped paragraph `"abc"` (3 characters, no cleanup, no
length filter). -/
theorem C3_counterexample :
    parseScript "abc" = [⟨Speaker.HOST, "abc"⟩] ∧ ¬ 10 < "abc".length := by
  exact ⟨by decide, by decide⟩

/-- C3 (amended): whenever any pattern strategy or the loose heuristic
produced the matches (`parseMatches ≠ []`), every extracted span passes
through the cleanup chain and every emitted segment has cleaned text longer
than 10 characters; the last-resort paragraph fallback (taken only when
`parseMatches = []`) emits stripped paragraphs without cleanup or length
filter. -/
theorem C3_cleanup_and_length_filter (raw : String)
    (h : parseMatches raw.data ≠ []) :
    ∀ seg ∈ parseScript raw, 10 < seg.text.length := by
  intro seg hseg
  unfold parseScript at hseg
  rw [if_pos h] at hseg
  unfold buildSegments at hseg
  rcases List.mem_filterMap.mp hseg with ⟨m, _, hm⟩
  simp only at hm
  split at hm
  · rename_i hcond
    cases hm
    exact hcond.2
  · cases hm

/-- Witness for `C3_cleanup_and_length_filter` at a bracket-tag input. -/
theorem C3_cleanup_witness :
    10 < ((parseScript "[HOST] Witaj w podcaście!").headD
      ⟨Speaker.HOST, ""⟩).text.length :=
  C3_cleanup_and_length_filter "[HOST] Witaj w podcaście!" (by decide) _ (by decide)

/-- C9: whenever the bracket-tag pattern has at least one match, the parser's
output is built exclusively from those matches — later strategies and the
loose/paragraph fallbacks are skipped even if the loose pattern also
matches. -/
theorem C9_cascade_priority (raw : String)
    (h1 : findall1 raw.data ≠ []) (hL : findallLoose raw.data ≠ []) :
    parseScript raw = buildSegments (findall1 raw.data) := by
  unfold parseScript parseMatches
  simp only [h1, ne_eq, not_false_iff, if_true, ite_not, if_neg h1]

/-- Witness for `C9_cascade_priority`: the input matches both the bracket-tag
pattern and the loose heuristic. -/
theorem C9_cascade_priority_witness :
    parseScript "[HOST] Witaj przyjaciele **host**: dobrze, że z nami jesteście"
      = buildSegments (findall1
        "[HOST] Witaj przyjaciele **host**: dobrze, że z nami jesteście".data) :=
  C9_cascade_priority _ (by decide) (by decide)

/-! ## Text Sanitizer (`clean_script_for_tts`, text_normalizer.py 429-485)

Each `re.sub` pass becomes one scanner; they are composed in source order.
All scanners advance by at least one input character per step, so fuel
`length + 1` never runs out.  `MULTILINE` passes thread an "at line start"
Boolean (the previous character was a newline). -/

/-- Pass 1, `re.sub(r'^#{1,6}\s+.*?$', '', ·, MULTILINE)`: at a line start,
1–6 `#` (seven or more fail the whole match), a greedy whitespace run (which
may cross newlines), then the lazy rest runs to the end of the current line
(`$`). -/
def cleanHeaders : Nat → Bool → List Char → List Char
  | 0, _, cs => cs
  | _, _, [] => []
  | fuel + 1, atLS, c :: cs =>
    if atLS && c = '#' then
      let h := runLen (· = '#') (c :: cs)
      let rest1 := (c :: cs).drop h
      if h ≤ 6 && decide (1 ≤ runLen pyIsSpace rest1) then
        let rest2 := rest1.drop (runLen pyIsSpace rest1)
        cleanHeaders fuel false (rest2.drop (runLen (· ≠ '\n') rest2))
      else c :: cleanHeaders fuel false cs
    else c :: cleanHeaders fuel (c = '\n') cs

def bracketAlts : List (List Char) :=
  ["HOST".data, "CO-HOST".data, "PROWADZĄCY".data, "WSPÓŁPROWADZĄCY".data,
    "H".data, "C".data]

/-- Head of pass 2 at one position:
`\[(?:HOST|CO-HOST|PROWADZĄCY|WSPÓŁPROWADZĄCY|H|C)\]`, case-insensitive. -/
def bracketTagLen (cs : List Char) : Option Nat :=
  match cs with
  | '[' :: d =>
    bracketAlts.findSome? fun alt =>
      if ciPref alt d && startsWith ']' (d.drop alt.length) then
        some (1 + alt.length + 1)
      else none
  | _ => none

/-- Pass 2, `re.sub(r'\[(?:HOST|…|H|C)\][\s:]*', '', ·, IGNORECASE)`. -/
def cleanBracketTags : Nat → List Char → List Char
  | 0, cs => cs
  | _, [] => []
  | fuel + 1, c :: cs =>
    match bracketTagLen (c :: cs) with
    | some L =>
      let rest := (c :: cs).drop L
      cleanBracketTags fuel (rest.drop (runLen sepColonWs rest))
    | none => c :: cleanBracketTags fuel cs

def speakerAlts : List (List Char) :=
  ["HOST".data, "CO-HOST".data, "PROWADZĄCY".data, "WSPÓŁPROWADZĄCY".data,
    "Host".data, "Co-Host".data]

/-- Head of pass 3 at a line start: one of the labels followed by a
non-empty `[:\s]` run. -/
def speakerLineLen (cs : List Char) : Option Nat :=
  speakerAlts.findSome? fun alt =>
    if ciPref alt cs && decide (1 ≤ runLen sepColonWs (cs.drop alt.length)) then
      some (alt.length + runLen sepColonWs (cs.drop alt.length))
    else none

/-- Pass 3, `re.sub(r'^(?:HOST|…|Co-Host)[:\s]+', '', ·, MULTILINE|IGNORECASE)`. -/
def cleanSpeakerLines : Nat → Bool → List Char → List Char
  | 0, _, cs => cs
  | _, _, [] => []
  | fuel + 1, atLS, c :: cs =>
    if atLS then
      match speakerLineLen (c :: cs) with
      | some L =>
        cleanSpeakerLines fuel (((c :: cs).take L).getLast? == some '\n')
          ((c :: cs).drop L)
      | none => c :: cleanSpeakerLines fuel (c = '\n') cs
    else c :: cleanSpeakerLines fuel (c = '\n') cs

/-- Pass 4a, `re.sub(r'\*\*([^*]+)\*\*', r'\1', ·)`: a bold pair collapses
to its inner text. -/
def cleanBoldPairs : Nat → List Char → List Char
  | 0, cs => cs
  | _, [] => []
  | fuel + 1, c :: cs =>
    if List.isPrefixOf "**".data (c :: cs) then
      let d := (c :: cs).drop 2
      let q := runLen (· ≠ '*') d
      if 1 ≤ q && List.isPrefixOf "**".data (d.drop q) then
        d.take q ++ cleanBoldPairs fuel (d.drop (q + 2))
      else c :: cleanBoldPairs fuel cs
    else c :: cleanBoldPairs fuel cs

/-- Pass 4b, `re.sub(r'\*+', '', ·)` (dropping stars one by one removes the
same characters as dropping maximal runs). -/
def cleanStarRuns : List Char → List Char
  | [] => []
  | c :: cs => if c = '*' then cleanStarRuns cs else c :: cleanStarRuns cs

/-- Head of pass 5:
`(?:kontynuacja|continuation|część\s*\d+|part\s*\d+)`, case-insensitive
(the four alternatives have pairwise incompatible prefixes, so first-match
order reduces to this if-chain). -/
def contMarkerLen (cs : List Char) : Option Nat :=
  if ciPref "kontynuacja".data cs then some 11
  else if ciPref "continuation".data cs then some 12
  else if ciPref "część".data cs then
    let w := runLen pyIsSpace (cs.drop 5)
    let d := runLen isAsciiDigit (cs.drop (5 + w))
    if 1 ≤ d then some (5 + w + d) else none
  else if ciPref "part".data cs then
    let w := runLen pyIsSpace (cs.drop 4)
    let d := runLen isAsciiDigit (cs.drop (4 + w))
    if 1 ≤ d then some (4 + w + d) else none
  else none

/-- Pass 5, `re.sub(r'(?:kontynuacja|…|part\s*\d+)[\s:]*', '', ·, IGNORECASE)`. -/
def cleanContinuationMarkers : Nat → List Char → List Char
  | 0, cs => cs
  | _, [] => []
  | fuel + 1, c :: cs =>
    match contMarkerLen (c :: cs) with
    | some L =>
      let rest := (c :: cs).drop L
      cleanContinuationMarkers fuel (rest.drop (runLen sepColonWs rest))
    | none => c :: cleanContinuationMarkers fuel cs

/-- Pass 6, `re.sub(r'\([^)]{1,30}\)', '', ·)`: short parenthetical asides. -/
def cleanStageParens : Nat → List Char → List Char
  | 0, cs => cs
  | _, [] => []
  | fuel + 1, c :: cs =>
    if c = '(' && 1 ≤ runLen (· ≠ ')') cs && runLen (· ≠ ')') cs ≤ 30 &&
        startsWith ')' (cs.drop (runLen (· ≠ ')') cs)) then
      cleanStageParens fuel (cs.drop (runLen (· ≠ ')') cs + 1))
    else c :: cleanStageParens fuel cs

/-- Pass 7, `re.sub(r'\[\s*\]|\(\s*\)', '', ·)`: now-empty pairs. -/
def cleanEmptyPairs : Nat → List Char → List Char
  | 0, cs => cs
  | _, [] => []
  | fuel + 1, c :: cs =>
    if c = '[' && startsWith ']' (cs.drop (runLen pyIsSpace cs)) then
      cleanEmptyPairs fuel ((cs.drop (runLen pyIsSpace cs)).drop 1)
    else if c = '(' && startsWith ')' (cs.drop (runLen pyIsSpace cs)) then
      cleanEmptyPairs fuel ((cs.drop (runLen pyIsSpace cs)).drop 1)
    else c :: cleanEmptyPairs fuel cs

/-- `[:\s]*$` under MULTILINE, after a label: the greedy separator run backs
off to the largest end that sits at a `$` position (end of input, or just
before a newline inside the run — the newline itself is kept). -/
def sepToEOL (d : List Char) : Option Nat :=
  let r := runLen sepColonWs d
  if d.drop r = [] then some r
  else rfindChar '\n' (d.take r)

/-- `\s*\d*[:\s]*$` after `TEMAT`/`TOPIC`/`SEGMENT`: backtracks the leading
whitespace run from longest to shortest (digit runs cannot back off — a
shorter one leaves a digit where only `[:\s]` or `$` may follow). -/
def numLabelTailAux (d : List Char) : Nat → Option Nat
  | 0 => (sepToEOL (d.drop (runLen isAsciiDigit d))).map (runLen isAsciiDigit d + ·)
  | a + 1 =>
    let d1 := d.drop (a + 1)
    let b := runLen isAsciiDigit d1
    match sepToEOL (d1.drop b) with
    | some t => some (a + 1 + b + t)
    | none => numLabelTailAux d a

def numLabelTail (d : List Char) : Option Nat :=
  numLabelTailAux d (runLen pyIsSpace d)

/-- Head of pass 8 at a line start:
`(?:INTRO|OUTRO|TEMAT\s*\d*|TOPIC\s*\d*|SEGMENT\s*\d*)[:\s]*$`. -/
def sectionLabelLen (cs : List Char) : Option Nat :=
  if ciPref "INTRO".data cs then (sepToEOL (cs.drop 5)).map (5 + ·)
  else if ciPref "OUTRO".data cs then (sepToEOL (cs.drop 5)).map (5 + ·)
  else if ciPref "TEMAT".data cs then (numLabelTail (cs.drop 5)).map (5 + ·)
  else if ciPref "TOPIC".data cs then (numLabelTail (cs.drop 5)).map (5 + ·)
  else if ciPref "SEGMENT".data cs then (numLabelTail (cs.drop 7)).map (7 + ·)
  else none

/-- Pass 8, `re.sub(r'^(?:INTRO|…)[:\s]*$', '', ·, MULTILINE|IGNORECASE)`. -/
def cleanSectionLabels : Nat → Bool → List Char → List Char
  | 0, _, cs => cs
  | _, _, [] => []
  | fuel + 1, atLS, c :: cs =>
    if atLS then
      match sectionLabelLen (c :: cs) with
      | some L =>
        cleanSectionLabels fuel (((c :: cs).take L).getLast? == some '\n')
          ((c :: cs).drop L)
      | none => c :: cleanSectionLabels fuel (c = '\n') cs
    else c :: cleanSectionLabels fuel (c = '\n') cs

/-- Pass 9, `re.sub(r'https?://\S+', '', ·)`. -/
def cleanURLs : Nat → List Char → List Char
  | 0, cs => cs
  | _, [] => []
  | fuel + 1, c :: cs =>
    if List.isPrefixOf "https://".data (c :: cs) &&
        decide (1 ≤ runLen (fun x => !pyIsSpace x) ((c :: cs).drop 8)) then
      cleanURLs fuel
        (((c :: cs).drop 8).drop (runLen (fun x => !pyIsSpace x) ((c :: cs).drop 8)))
    else if List.isPrefixOf "http://".data (c :: cs) &&
        decide (1 ≤ runLen (fun x => !pyIsSpace x) ((c :: cs).drop 7)) then
      cleanURLs fuel
        (((c :: cs).drop 7).drop (runLen (fun x => !pyIsSpace x) ((c :: cs).drop 7)))
    else c :: cleanURLs fuel cs

/-- Pass 10, `re.sub(r'_{2,}|~{2,}|` + backtick-run + `', '', ·)`
(the third alternative is one or more backquotes, `Char.ofNat 96`). -/
def cleanMarkdownLeftovers : Nat → List Char → List Char
  | 0, cs => cs
  | _, [] => []
  | fuel + 1, c :: cs =>
    if 2 ≤ runLen (· = '_') (c :: cs) then
      cleanMarkdownLeftovers fuel ((c :: cs).drop (runLen (· = '_') (c :: cs)))
    else if 2 ≤ runLen (· = '~') (c :: cs) then
      cleanMarkdownLeftovers fuel ((c :: cs).drop (runLen (· = '~') (c :: cs)))
    else if 1 ≤ runLen (· = Char.ofNat 96) (c :: cs) then
      cleanMarkdownLeftovers fuel ((c :: cs).drop (runLen (· = Char.ofNat 96) (c :: cs)))
    else c :: cleanMarkdownLeftovers fuel cs

/-- Pass 11, `re.sub(r'\n{3,}', '\n\n', ·)`. -/
def collapseNewlines3 : Nat → List Char → List Char
  | 0, cs => cs
  | _, [] => []
  | fuel + 1, c :: cs =>
    if 3 ≤ runLen (· = '\n') (c :: cs) then
      '\n' :: '\n' :: collapseNewlines3 fuel ((c :: cs).drop (runLen (· = '\n') (c :: cs)))
    else c :: collapseNewlines3 fuel cs

/-- Pass 12, `re.sub(r'[ \t]+', ' ', ·)`. -/
def collapseSpacesTabs : Nat → List Char → List Char
  | 0, cs => cs
  | _, [] => []
  | fuel + 1, c :: cs =>
    if 1 ≤ runLen (fun x => x = ' ' || x = '\t') (c :: cs) then
      ' ' :: collapseSpacesTabs fuel
        ((c :: cs).drop (runLen (fun x => x = ' ' || x = '\t') (c :: cs)))
    else c :: collapseSpacesTabs fuel cs

/-- Pass 13, `re.sub(r'^\s+|\s+$', '', ·, MULTILINE)`.  At a line start the
whole whitespace run goes (it may span lines); mid-line, a run matches
`\s+$` up to the last newline inside it (kept) or to the end of input.
Scanning resumes with "line start" when the last removed character was a
newline. -/
def trimLines : Nat → Bool → List Char → List Char
  | 0, _, cs => cs
  | _, _, [] => []
  | fuel + 1, atLS, c :: cs =>
    let r := runLen pyIsSpace (c :: cs)
    if atLS && 1 ≤ r then
      trimLines fuel (((c :: cs).take r).getLast? == some '\n') ((c :: cs).drop r)
    else if 1 ≤ r then
      if (c :: cs).drop r = [] then []
      else
        match rfindChar '\n' ((c :: cs).take r) with
        | some t =>
          if 1 ≤ t then
            trimLines fuel (((c :: cs).take t).getLast? == some '\n') ((c :: cs).drop t)
          else c :: trimLines fuel (c = '\n') cs
        | none => c :: trimLines fuel (c = '\n') cs
    else c :: trimLines fuel (c = '\n') cs

/-- `clean_script_for_tts`: the fourteen passes in source order, then
`strip()`. -/
def cleanScriptForTTSListChar (t0 : List Char) : List Char :=
  let t1 := cleanHeaders (t0.length + 1) true t0
  let t2 := cleanBracketTags (t1.length + 1) t1
  let t3 := cleanSpeakerLines (t2.length + 1) true t2
  let t4 := cleanBoldPairs (t3.length + 1) t3
  let t5 := cleanStarRuns t4
  let t6 := cleanContinuationMarkers (t5.length + 1) t5
  let t7 := cleanStageParens (t6.length + 1) t6
  let t8 := cleanEmptyPairs (t7.length + 1) t7
  let t9 := cleanSectionLabels (t8.length + 1) true t8
  let t10 := cleanURLs (t9.length + 1) t9
  let t11 := cleanMarkdownLeftovers (t10.length + 1) t10
  let t12 := collapseNewlines3 (t11.length + 1) t11
  let t13 := collapseSpacesTabs (t12.length + 1) t12
  let t14 := trimLines (t13.length + 1) true t13
  pyStrip t14

def cleanScriptForTTS (text : String) : String :=
  String.mk (cleanScriptForTTSListChar text.data)

/-! ## Sanitizer idempotence (C2)

`clean_script_for_tts` is *not* idempotent in general (removing a
continuation marker can splice together a new one).  We prove the
counterexample and, as the amended claim, that on plain lowercase-ASCII
texts free of continuation keywords and section labels the function is the
identity, hence idempotent there. -/

def isLowerAlphaB (c : Char) : Bool := 97 ≤ c.toNat && c.toNat ≤ 122

/-- Case-insensitive substring occurrence (via `ciPref` at every position). -/
def ciSubstr (pat : List Char) : List Char → Bool
  | [] => ciPref pat []
  | c :: cs => ciPref pat (c :: cs) || ciSubstr pat cs

def sectionLabels : List (List Char) :=
  ["intro".data, "outro".data, "temat".data, "topic".data, "segment".data]

/-- Texts over plain lowercase ASCII letters, with no (case-insensitive)
occurrence of a continuation keyword, and not a bare section label. -/
def plainLowerText (cs : List Char) : Prop :=
  (∀ c ∈ cs, isLowerAlphaB c = true) ∧
  ciSubstr "kontynuacja".data cs = false ∧
  ciSubstr "continuation".data cs = false ∧
  ¬ cs ∈ sectionLabels

theorem lower_ne (c : Char) (h : isLowerAlphaB c = true) (d : Char)
    (hd : d.toNat < 97 ∨ 122 < d.toNat) : c ≠ d := by
  intro heq
  subst heq
  simp only [isLowerAlphaB, Bool.and_eq_true, decide_eq_true_eq] at h
  omega

theorem lower_pyIsSpace (c : Char) (h : isLowerAlphaB c = true) :
    pyIsSpace c = false := by
  simp [pyIsSpace, lower_ne c h ' ' (by decide), lower_ne c h '\t' (by decide),
    lower_ne c h '\n' (by decide), lower_ne c h '\r' (by decide),
    lower_ne c h '\x0b' (by decide), lower_ne c h '\x0c' (by decide)]

theorem lower_sepColonWs (c : Char) (h : isLowerAlphaB c = true) :
    sepColonWs c = false := by
  simp [sepColonWs, lower_ne c h ':' (by decide), lower_pyIsSpace c h]

theorem lower_isAsciiDigit (c : Char) (h : isLowerAlphaB c = true) :
    isAsciiDigit c = false := by
  simp only [isLowerAlphaB, Bool.and_eq_true, decide_eq_true_eq] at h
  simp only [isAsciiDigit, Bool.and_eq_false_iff, decide_eq_false_iff_not]
  omega

theorem runLen_zero_head (p : Char → Bool) (cs : List Char)
    (h : ∀ c ∈ cs, p c = false) : runLen p cs = 0 := by
  cases cs with
  | nil => rfl
  | cons c cs' => simp [runLen, h c (List.mem_cons_self ..)]

theorem isPrefixOf_false_of_bad (pat cs : List Char) (d : Char) (hd : d ∈ pat)
    (hdbad : isLowerAlphaB d = false)
    (hall : ∀ c ∈ cs, isLowerAlphaB c = true) :
    List.isPrefixOf pat cs = false := by
  cases hb : List.isPrefixOf pat cs with
  | false => rfl
  | true =>
    have hpre : pat <+: cs := List.isPrefixOf_iff_prefix.mp hb
    have hmem : d ∈ cs := hpre.subset hd
    rw [hall d hmem] at hdbad
    cases hdbad

theorem toLowerPL_fixed (c : Char) (h : isLowerAlphaB c = true) :
    toLowerPL c = c := by
  have hn : 97 ≤ c.toNat ∧ c.toNat ≤ 122 := by
    simpa [isLowerAlphaB] using h
  unfold toLowerPL
  rw [if_neg (by simp only [Bool.and_eq_true, decide_eq_true_eq, not_and]; omega),
    if_neg (lower_ne c h 'Ą' (by decide)), if_neg (lower_ne c h 'Ć' (by decide)),
    if_neg (lower_ne c h 'Ę' (by decide)), if_neg (lower_ne c h 'Ł' (by decide)),
    if_neg (lower_ne c h 'Ń' (by decide)), if_neg (lower_ne c h 'Ó' (by decide)),
    if_neg (lower_ne c h 'Ś' (by decide)), if_neg (lower_ne c h 'Ź' (by decide)),
    if_neg (lower_ne c h 'Ż' (by decide))]

theorem ciPref_lower_take (pat : List Char) :
    ∀ cs : List Char, ciPref pat cs = true →
      (∀ c ∈ cs, isLowerAlphaB c = true) →
      cs.take pat.length = pat.map toLowerPL := by
  induction pat with
  | nil => intro cs _ _; simp
  | cons p ps ih =>
    intro cs hc hall
    cases cs with
    | nil => cases hc
    | cons c cs' =>
      simp only [ciPref, Bool.and_eq_true, decide_eq_true_eq] at hc
      have hcl : toLowerPL c = c := toLowerPL_fixed c (hall c (List.mem_cons_self ..))
      simp only [List.length_cons, List.take_succ_cons, List.map_cons]
      rw [hc.1, hcl, ih cs' hc.2 (fun x hx => hall x (List.mem_cons_of_mem _ hx))]

/-! ### Per-pass identity on plain lowercase text -/

theorem cleanHeaders_id : ∀ (fuel : Nat) (b : Bool) (cs : List Char),
    (∀ c ∈ cs, isLowerAlphaB c = true) → cleanHeaders fuel b cs = cs := by
  intro fuel
  induction fuel with
  | zero => intro b cs _; cases cs <;> rfl
  | succ fuel ih =>
    intro b cs h
    cases cs with
    | nil => rfl
    | cons c cs' =>
      have hc := h c (List.mem_cons_self ..)
      have hcs := fun x hx => h x (List.mem_cons_of_mem _ hx)
      simp only [cleanHeaders]
      rw [if_neg (by simp [lower_ne c hc '#' (by decide)])]
      rw [ih _ cs' hcs]

theorem bracketTagLen_none (c : Char) (cs : List Char) (hc : c ≠ '[') :
    bracketTagLen (c :: cs) = none := by
  unfold bracketTagLen
  split
  · rename_i d heq
    injection heq with h1 _
    exact absurd h1 hc
  · rfl

theorem cleanBracketTags_id : ∀ (fuel : Nat) (cs : List Char),
    (∀ c ∈ cs, isLowerAlphaB c = true) → cleanBracketTags fuel cs = cs := by
  intro fuel
  induction fuel with
  | zero => intro cs _; cases cs <;> rfl
  | succ fuel ih =>
    intro cs h
    cases cs with
    | nil => rfl
    | cons c cs' =>
      have hc := h c (List.mem_cons_self ..)
      have hcs := fun x hx => h x (List.mem_cons_of_mem _ hx)
      simp only [cleanBracketTags,
        bracketTagLen_none c cs' (lower_ne c hc '[' (by decide))]
      rw [ih cs' hcs]

theorem speakerLineLen_none (cs : List Char)
    (hall : ∀ c ∈ cs, isLowerAlphaB c = true) : speakerLineLen cs = none := by
  have hrun : ∀ k, runLen sepColonWs (cs.drop k) = 0 := fun k =>
    runLen_zero_head _ _
      (fun c hc => lower_sepColonWs c (hall c (List.mem_of_mem_drop hc)))
  simp [speakerLineLen, speakerAlts, List.findSome?, hrun]

theorem cleanSpeakerLines_id : ∀ (fuel : Nat) (b : Bool) (cs : List Char),
    (∀ c ∈ cs, isLowerAlphaB c = true) → cleanSpeakerLines fuel b cs = cs := by
  intro fuel
  induction fuel with
  | zero => intro b cs _; cases cs <;> rfl
  | succ fuel ih =>
    intro b cs h
    cases cs with
    | nil => rfl
    | cons c cs' =>
      have hcs := fun x hx => h x (List.mem_cons_of_mem _ hx)
      simp only [cleanSpeakerLines, speakerLineLen_none _ h]
      split
      · rw [ih _ cs' hcs]
      · rw [ih _ cs' hcs]

theorem cleanBoldPairs_id : ∀ (fuel : Nat) (cs : List Char),
    (∀ c ∈ cs, isLowerAlphaB c = true) → cleanBoldPairs fuel cs = cs := by
  intro fuel
  induction fuel with
  | zero => intro cs _; cases cs <;> rfl
  | succ fuel ih =>
    intro cs h
    cases cs with
    | nil => rfl
    | cons c cs' =>
      have hcs := fun x hx => h x (List.mem_cons_of_mem _ hx)
      simp only [cleanBoldPairs,
        isPrefixOf_false_of_bad "**".data (c :: cs') '*' (by decide) (by decide) h]
      rw [ih cs' hcs]
      simp

theorem cleanStarRuns_id : ∀ cs : List Char,
    (∀ c ∈ cs, isLowerAlphaB c = true) → cleanStarRuns cs = cs := by
  intro cs
  induction cs with
  | nil => intro _; rfl
  | cons c cs' ih =>
    intro h
    have hc := h c (List.mem_cons_self ..)
    have hne : c ≠ '*' := lower_ne c hc '*' (by decide)
    have hcs := fun x hx => h x (List.mem_cons_of_mem _ hx)
    simp only [cleanStarRuns]
    rw [if_neg hne, ih hcs]

theorem ciSubstr_head_false (pat c cs) (h : ciSubstr pat (c :: cs) = false) :
    ciPref pat (c :: cs) = false ∧ ciSubstr pat cs = false := by
  have := h
  unfold ciSubstr at this
  exact Bool.or_eq_false_iff.mp this

theorem contMarkerLen_none (cs : List Char)
    (hall : ∀ c ∈ cs, isLowerAlphaB c = true)
    (hk : ciPref "kontynuacja".data cs = false)
    (hc : ciPref "continuation".data cs = false) :
    contMarkerLen cs = none := by
  have hdig : ∀ k, runLen isAsciiDigit (cs.drop k) = 0 := fun k =>
    runLen_zero_head _ _
      (fun c hcm => lower_isAsciiDigit c (hall c (List.mem_of_mem_drop hcm)))
  simp [contMarkerLen, hk, hc, hdig]

theorem cleanContinuationMarkers_id : ∀ (fuel : Nat) (cs : List Char),
    (∀ c ∈ cs, isLowerAlphaB c = true) →
    ciSubstr "kontynuacja".data cs = false →
    ciSubstr "continuation".data cs = false →
    cleanContinuationMarkers fuel cs = cs := by
  intro fuel
  induction fuel with
  | zero => intro cs _ _ _; cases cs <;> rfl
  | succ fuel ih =>
    intro cs h hk hc
    cases cs with
    | nil => rfl
    | cons c cs' =>
      have hcs := fun x hx => h x (List.mem_cons_of_mem _ hx)
      have hk' := ciSubstr_head_false _ _ _ hk
      have hc' := ciSubstr_head_false _ _ _ hc
      simp only [cleanContinuationMarkers,
        contMarkerLen_none (c :: cs') h hk'.1 hc'.1]
      rw [ih cs' hcs hk'.2 hc'.2]

theorem cleanStageParens_id : ∀ (fuel : Nat) (cs : List Char),
    (∀ c ∈ cs, isLowerAlphaB c = true) → cleanStageParens fuel cs = cs := by
  intro fuel
  induction fuel with
  | zero => intro cs _; cases cs <;> rfl
  | succ fuel ih =>
    intro cs h
    cases cs with
    | nil => rfl
    | cons c cs' =>
      have hc := h c (List.mem_cons_self ..)
      have hcs := fun x hx => h x (List.mem_cons_of_mem _ hx)
      simp only [cleanStageParens]
      rw [if_neg (by simp [lower_ne c hc '(' (by decide)])]
      rw [ih cs' hcs]

theorem cleanEmptyPairs_id : ∀ (fuel : Nat) (cs : List Char),
    (∀ c ∈ cs, isLowerAlphaB c = true) → cleanEmptyPairs fuel cs = cs := by
  intro fuel
  induction fuel with
  | zero => intro cs _; cases cs <;> rfl
  | succ fuel ih =>
    intro cs h
    cases cs with
    | nil => rfl
    | cons c cs' =>
      have hc := h c (List.mem_cons_self ..)
      have hcs := fun x hx => h x (List.mem_cons_of_mem _ hx)
      simp only [cleanEmptyPairs]
      rw [if_neg (by simp [lower_ne c hc '[' (by decide)]),
        if_neg (by simp [lower_ne c hc '(' (by decide)])]
      rw [ih cs' hcs]

theorem sepToEOL_plain_cons (c : Char) (cs : List Char)
    (hall : ∀ x ∈ c :: cs, isLowerAlphaB x = true) :
    sepToEOL (c :: cs) = none := by
  unfold sepToEOL
  rw [runLen_zero_head _ _ (fun x hx => lower_sepColonWs x (hall x hx))]
  simp [rfindChar, rfindCharAux]

theorem numLabelTail_plain_cons (c : Char) (cs : List Char)
    (hall : ∀ x ∈ c :: cs, isLowerAlphaB x = true) :
    numLabelTail (c :: cs) = none := by
  unfold numLabelTail
  rw [runLen_zero_head _ _ (fun x hx => lower_pyIsSpace x (hall x hx))]
  unfold numLabelTailAux
  rw [runLen_zero_head _ _ (fun x hx => lower_isAsciiDigit x (hall x hx))]
  simp [sepToEOL_plain_cons c cs hall]

theorem sectionLabelLen_none (cs : List Char)
    (hall : ∀ c ∈ cs, isLowerAlphaB c = true) (hlab : ¬ cs ∈ sectionLabels) :
    sectionLabelLen cs = none := by
  have hdropall : ∀ k, ∀ c ∈ cs.drop k, isLowerAlphaB c = true :=
    fun k c hc => hall c (List.mem_of_mem_drop hc)
  have hbranch : ∀ (pat low : List Char) (k : Nat), ciPref pat cs = true →
      pat.length = k → pat.map toLowerPL = low → low.length = k →
      low ∈ sectionLabels → cs.drop k ≠ [] := by
    intro pat low k hci hlen hmap hlowlen hmem hnil
    apply hlab
    have ht := ciPref_lower_take pat cs hci hall
    rw [hlen, hmap] at ht
    have : cs = low := by
      conv_lhs => rw [← List.take_append_drop k cs]
      rw [hnil, ht, List.append_nil]
    rw [this]
    exact hmem
  unfold sectionLabelLen
  split_ifs with h1 h2 h3 h4 h5
  · cases hd : cs.drop 5 with
    | nil =>
      exact absurd hd (hbranch "INTRO".data "intro".data 5 h1
        (by decide) (by decide) (by decide) (by decide))
    | cons d ds =>
      rw [sepToEOL_plain_cons d ds (hd ▸ hdropall 5)]
      rfl
  · cases hd : cs.drop 5 with
    | nil =>
      exact absurd hd (hbranch "OUTRO".data "outro".data 5 h2
        (by decide) (by decide) (by decide) (by decide))
    | cons d ds =>
      rw [sepToEOL_plain_cons d ds (hd ▸ hdropall 5)]
      rfl
  · cases hd : cs.drop 5 with
    | nil =>
      exact absurd hd (hbranch "TEMAT".data "temat".data 5 h3
        (by decide) (by decide) (by decide) (by decide))
    | cons d ds =>
      rw [numLabelTail_plain_cons d ds (hd ▸ hdropall 5)]
      rfl
  · cases hd : cs.drop 5 with
    | nil =>
      exact absurd hd (hbranch "TOPIC".data "topic".data 5 h4
        (by decide) (by decide) (by decide) (by decide))
    | cons d ds =>
      rw [numLabelTail_plain_cons d ds (hd ▸ hdropall 5)]
      rfl
  · cases hd : cs.drop 7 with
    | nil =>
      exact absurd hd (hbranch "SEGMENT".data "segment".data 7 h5
        (by decide) (by decide) (by decide) (by decide))
    | cons d ds =>
      rw [numLabelTail_plain_cons d ds (hd ▸ hdropall 7)]
      rfl
  · rfl

theorem cleanSectionLabels_id : ∀ (fuel : Nat) (b : Bool) (cs : List Char),
    (∀ c ∈ cs, isLowerAlphaB c = true) →
    (b = true → sectionLabelLen cs = none) →
    cleanSectionLabels fuel b cs = cs := by
  intro fuel
  induction fuel with
  | zero => intro b cs _ _; cases cs <;> rfl
  | succ fuel ih =>
    intro b cs h hsec
    cases cs with
    | nil => rfl
    | cons c cs' =>
      have hc := h c (List.mem_cons_self ..)
      have hcs := fun x hx => h x (List.mem_cons_of_mem _ hx)
      have hnotnl : (decide (c = '\n') = true) → sectionLabelLen cs' = none := by
        intro hb
        exact absurd (of_decide_eq_true hb) (lower_ne c hc '\n' (by decide))
      cases b with
      | true =>
        simp only [cleanSectionLabels, hsec rfl]
        rw [ih _ cs' hcs hnotnl]
        simp
      | false =>
        simp only [cleanSectionLabels]
        rw [ih _ cs' hcs hnotnl]
        simp

theorem cleanURLs_id : ∀ (fuel : Nat) (cs : List Char),
    (∀ c ∈ cs, isLowerAlphaB c = true) → cleanURLs fuel cs = cs := by
  intro fuel
  induction fuel with
  | zero => intro cs _; cases cs <;> rfl
  | succ fuel ih =>
    intro cs h
    cases cs with
    | nil => rfl
    | cons c cs' =>
      have hcs := fun x hx => h x (List.mem_cons_of_mem _ hx)
      simp only [cleanURLs]
      rw [if_neg (by
          simp [isPrefixOf_false_of_bad "https://".data (c :: cs') ':'
            (by decide) (by decide) h]),
        if_neg (by
          simp [isPrefixOf_false_of_bad "http://".data (c :: cs') ':'
            (by decide) (by decide) h])]
      rw [ih cs' hcs]

theorem cleanMarkdownLeftovers_id : ∀ (fuel : Nat) (cs : List Char),
    (∀ c ∈ cs, isLowerAlphaB c = true) → cleanMarkdownLeftovers fuel cs = cs := by
  intro fuel
  induction fuel with
  | zero => intro cs _; cases cs <;> rfl
  | succ fuel ih =>
    intro cs h
    cases cs with
    | nil => rfl
    | cons c cs' =>
      have hc := h c (List.mem_cons_self ..)
      have hcs := fun x hx => h x (List.mem_cons_of_mem _ hx)
      have h1 : runLen (· = '_') (c :: cs') = 0 := by
        simp [runLen, lower_ne c hc '_' (by decide)]
      have h2 : runLen (· = '~') (c :: cs') = 0 := by
        simp [runLen, lower_ne c hc '~' (by decide)]
      have h3 : runLen (· = Char.ofNat 96) (c :: cs') = 0 := by
        simp [runLen, lower_ne c hc (Char.ofNat 96) (by decide)]
      simp only [cleanMarkdownLeftovers, h1, h2, h3]
      rw [if_neg (by decide), if_neg (by decide), if_neg (by decide)]
      rw [ih cs' hcs]

theorem collapseNewlines3_id : ∀ (fuel : Nat) (cs : List Char),
    (∀ c ∈ cs, isLowerAlphaB c = true) → collapseNewlines3 fuel cs = cs := by
  intro fuel
  induction fuel with
  | zero => intro cs _; cases cs <;> rfl
  | succ fuel ih =>
    intro cs h
    cases cs with
    | nil => rfl
    | cons c cs' =>
      have hc := h c (List.mem_cons_self ..)
      have hcs := fun x hx => h x (List.mem_cons_of_mem _ hx)
      have h1 : runLen (· = '\n') (c :: cs') = 0 := by
        simp [runLen, lower_ne c hc '\n' (by decide)]
      simp only [collapseNewlines3, h1]
      rw [if_neg (by decide)]
      rw [ih cs' hcs]

theorem collapseSpacesTabs_id : ∀ (fuel : Nat) (cs : List Char),
    (∀ c ∈ cs, isLowerAlphaB c = true) → collapseSpacesTabs fuel cs = cs := by
  intro fuel
  induction fuel with
  | zero => intro cs _; cases cs <;> rfl
  | succ fuel ih =>
    intro cs h
    cases cs with
    | nil => rfl
    | cons c cs' =>
      have hc := h c (List.mem_cons_self ..)
      have hcs := fun x hx => h x (List.mem_cons_of_mem _ hx)
      have h1 : runLen (fun x => x = ' ' || x = '\t') (c :: cs') = 0 := by
        simp [runLen, lower_ne c hc ' ' (by decide), lower_ne c hc '\t' (by decide)]
      simp only [collapseSpacesTabs, h1]
      rw [if_neg (by decide)]
      rw [ih cs' hcs]

theorem trimLines_id : ∀ (fuel : Nat) (b : Bool) (cs : List Char),
    (∀ c ∈ cs, isLowerAlphaB c = true) → trimLines fuel b cs = cs := by
  intro fuel
  induction fuel with
  | zero => intro b cs _; cases cs <;> rfl
  | succ fuel ih =>
    intro b cs h
    cases cs with
    | nil => rfl
    | cons c cs' =>
      have hc := h c (List.mem_cons_self ..)
      have hcs := fun x hx => h x (List.mem_cons_of_mem _ hx)
      have h1 : runLen pyIsSpace (c :: cs') = 0 := by
        simp [runLen, lower_pyIsSpace c hc]
      simp only [trimLines, h1]
      rw [if_neg (by simp), if_neg (by decide)]
      rw [ih _ cs' hcs]

theorem dropWhile_id_of_false (p : Char → Bool) (cs : List Char)
    (h : ∀ c ∈ cs, p c = false) : cs.dropWhile p = cs := by
  cases cs with
  | nil => rfl
  | cons c cs' => simp [List.dropWhile, h c (List.mem_cons_self ..)]

theorem pyStrip_id (cs : List Char)
    (h : ∀ c ∈ cs, isLowerAlphaB c = true) : pyStrip cs = cs := by
  unfold pyStrip
  rw [dropWhile_id_of_false _ _ (fun c hc => lower_pyIsSpace c (h c hc))]
  rw [dropWhile_id_of_false _ _
    (fun c hc => lower_pyIsSpace c (h c (List.mem_reverse.mp hc)))]
  simp

/-- On plain lowercase text, every pass of the sanitizer is the identity. -/
theorem cleanScript_id_plain (cs : List Char) (h : plainLowerText cs) :
    cleanScriptForTTSListChar cs = cs := by
  obtain ⟨hall, hk, hc, hlab⟩ := h
  unfold cleanScriptForTTSListChar
  simp only
  rw [cleanHeaders_id _ _ _ hall, cleanBracketTags_id _ _ hall,
    cleanSpeakerLines_id _ _ _ hall, cleanBoldPairs_id _ _ hall,
    cleanStarRuns_id _ hall, cleanContinuationMarkers_id _ _ hall hk hc,
    cleanStageParens_id _ _ hall, cleanEmptyPairs_id _ _ hall,
    cleanSectionLabels_id _ _ _ hall (fun _ => sectionLabelLen_none cs hall hlab),
    cleanURLs_id _ _ hall, cleanMarkdownLeftovers_id _ _ hall,
    collapseNewlines3_id _ _ hall, collapseSpacesTabs_id _ _ hall,
    trimLines_id _ _ _ hall, pyStrip_id _ hall]

/-- C2 claim, as stated (`clean(clean x) = clean x` for every `x`), is false:
removing the continuation marker `part 2` from `"parpart 2t 3"` splices the
characters around it into the new marker `part 3`, which only a second
application removes. -/
theorem C2_counterexample :
    cleanScriptForTTS "parpart 2t 3" = "part 3" ∧
    cleanScriptForTTS "part 3" = "" ∧
    cleanScriptForTTS (cleanScriptForTTS "parpart 2t 3")
      ≠ cleanScriptForTTS "parpart 2t 3" :=
  ⟨by decide, by decide, by decide⟩

/-- C2 (amended): the sanitizer is not idempotent in general — a removal can
splice together a new removable marker — but on plain lowercase-ASCII texts
with no (case-insensitive) continuation keyword and not equal to a bare
section label it is the identity, and hence idempotent. -/
theorem C2_clean_idempotent_on_plain (x : String) (h : plainLowerText x.data) :
    cleanScriptForTTS x = x ∧
    cleanScriptForTTS (cleanScriptForTTS x) = cleanScriptForTTS x := by
  have h1 : cleanScriptForTTS x = x := by
    unfold cleanScriptForTTS
    rw [cleanScript_id_plain x.data h]
  exact ⟨h1, by rw [h1, h1]⟩

/-- Witness for `C2_clean_idempotent_on_plain`. -/
theorem C2_clean_idempotent_witness :
    cleanScriptForTTS "witaj" = "witaj" ∧
    cleanScriptForTTS (cleanScriptForTTS "witaj") = cleanScriptForTTS "witaj" :=
  C2_clean_idempotent_on_plain "witaj" ⟨by decide, by decide, by decide, by decide⟩

/-! ## Pronunciation tables (`text_normalizer.py` 6-381, 543-604)

The Python dict literals are transcribed entry by entry in source order,
duplicate keys included; the table definitions below then apply dict-literal
semantics (the first insertion fixes a key's position, the last assignment
fixes its value). -/

def POLISH_PRONUNCIATIONS_ENTRIES : List (String × String) := [
  ("AWS", "a wu es"),
  ("GCP", "dżi si pi"),
  ("Azure", "ażur"),
  ("Node.js", "nołd dżej es"),
  ("node.js", "nołd dżej es"),
  ("NodeJS", "nołd dżej es"),
  ("React.js", "riakt dżej es"),
  ("react.js", "riakt dżej es"),
  ("Vue.js", "wju dżej es"),
  ("vue.js", "wju dżej es"),
  ("Next.js", "nekst dżej es"),
  ("next.js", "nekst dżej es"),
  ("Express.js", "ekspres dżej es"),
  ("Nuxt.js", "nakst dżej es"),
  ("Three.js", "tri dżej es"),
  ("D3.js", "di tri dżej es"),
  ("JS", "dżej es"),
  ("JavaScript", "dżawa skrypt"),
  ("TypeScript", "tajp skrypt"),
  ("Python", "pajton"),
  ("PyTorch", "paj torch"),
  ("NumPy", "nam paj"),
  ("SciPy", "saj paj"),
  ("API", "A P I"),
  ("APIs", "A P I"),
  ("REST", "rest"),
  ("RESTful", "restful"),
  ("GraphQL", "graf kju el"),
  ("gRPC", "dżi ar pi si"),
  ("HTTP", "ha te te pe"),
  ("HTTPS", "ha te te pe es"),
  ("WebSocket", "łeb soket"),
  ("OAuth", "o ałf"),
  ("JWT", "dżej dablju ti"),
  ("JSON", "dżejson"),
  ("YAML", "jamel"),
  ("XML", "iks em el"),
  ("HTML", "ha te em el"),
  ("CSS", "si es es"),
  ("SQL", "es kju el"),
  ("NoSQL", "no es kju el"),
  ("AI", "A I"),
  ("ML", "em el"),
  ("LLM", "el el em"),
  ("LLMs", "el el emy"),
  ("GPT", "dżi pi ti"),
  ("GPT-4", "dżi pi ti cztery"),
  ("GPT-5", "dżi pi ti pięć"),
  ("ChatGPT", "czat dżi pi ti"),
  ("OpenAI", "open A I"),
  ("NLP", "en el pi"),
  ("GPU", "dżi pi ju"),
  ("GPUs", "dżi pi ju"),
  ("CPU", "si pi ju"),
  ("TPU", "ti pi ju"),
  ("CUDA", "kuda"),
  ("CNN", "si en en"),
  ("RNN", "ar en en"),
  ("LSTM", "el es ti em"),
  ("RAG", "rag"),
  ("TTS", "ti ti es"),
  ("STT", "es ti ti"),
  ("DevOps", "dewops"),
  ("CI/CD", "si aj si di"),
  ("CI", "si aj"),
  ("CD", "si di"),
  ("K8s", "kubernetes"),
  ("k8s", "kubernetes"),
  ("Docker", "doker"),
  ("VM", "wi em"),
  ("VMs", "wi emy"),
  ("VPC", "wi pi si"),
  ("EC2", "i si tu"),
  ("S3", "es trzy"),
  ("RDS", "ar di es"),
  ("ECS", "i si es"),
  ("EKS", "i kej es"),
  ("IAM", "aj ej em"),
  ("CDN", "si di en"),
  ("DNS", "di en es"),
  ("IP", "aj pi"),
  ("SSH", "es es hasz"),
  ("SSL", "es es el"),
  ("TLS", "ti el es"),
  ("VPN", "wi pi en"),
  ("PostgreSQL", "postgres kju el"),
  ("MySQL", "maj es kju el"),
  ("MongoDB", "mongo di bi"),
  ("Redis", "redis"),
  ("DynamoDB", "dynamo di bi"),
  ("SQLite", "es kju lajt"),
  ("Git", "git"),
  ("GitHub", "git hab"),
  ("GitLab", "git lab"),
  ("PR", "pi ar"),
  ("PRs", "pi ary"),
  ("Microsoft", "majkrosoft"),
  ("Google", "gugl"),
  ("Amazon", "amazon"),
  ("Netflix", "netfliks"),
  ("Spotify", "spotifaj"),
  ("Slack", "slak"),
  ("Zoom", "zum"),
  ("VS Code", "wi es kod"),
  ("VSCode", "wi es kod"),
  ("macOS", "mak o es"),
  ("iOS", "aj o es"),
  ("Linux", "linuks"),
  ("Ubuntu", "ubuntu"),
  ("Windows", "łindołs"),
  ("Chrome", "krom"),
  ("Firefox", "fajerfoks"),
  ("SaaS", "sas"),
  ("PaaS", "pas"),
  ("IaaS", "jas"),
  ("IoT", "aj o ti"),
  ("AR", "ej ar"),
  ("VR", "wi ar"),
  ("XR", "iks ar"),
  ("SDK", "es di kej"),
  ("IDE", "aj di i"),
  ("CLI", "si el aj"),
  ("GUI", "dżi ju aj"),
  ("UI", "ju aj"),
  ("UX", "ju iks"),
  ("URL", "ju ar el"),
  ("URI", "ju ar aj"),
  ("UUID", "ju ju aj di"),
  ("regex", "redżeks"),
  ("RegEx", "redżeks"),
  ("async", "ejsink"),
  ("npm", "en pi em"),
  ("pip", "pip"),
  ("yarn", "jarn"),
  ("webpack", "łeb pak"),
  ("localhost", "lokal host"),
  ("README", "rid mi"),
  ("readme", "rid mi"),
  ("TODO", "tu du"),
  ("FIXME", "fiks mi"),
  ("FAQ", "ef ej kju"),
  ("etc.", "i tak dalej"),
  ("e.g.", "na przykład"),
  ("i.e.", "to znaczy"),
  ("repository", "re po zy to ri"),
  ("repo", "re po"),
  ("deployment", "di ploj ment"),
  ("deploy", "di ploj"),
  ("middleware", "mid l łer"),
  ("authentication", "o ten ty fi kej szyn"),
  ("auth", "ołf"),
  ("refactoring", "ri fak to ring"),
  ("refactor", "ri fak tor"),
  ("staging", "stej dżing"),
  ("backend", "bek end"),
  ("frontend", "front end"),
  ("legacy", "le ga si"),
  ("workflow", "łork floł"),
  ("serverless", "ser wer les"),
  ("microservices", "maj kro ser wi sys"),
  ("microservice", "maj kro ser wis"),
  ("containerized", "kon tej ne rajzd"),
  ("container", "kon tej ner"),
  ("orchestration", "or ke strej szyn"),
  ("pipeline", "pajp lajn"),
  ("CI/CD", "si aj si di"),
  ("DevOps", "dew ops"),
  ("GitOps", "git ops"),
  ("branch", "brancz"),
  ("merge", "merdż"),
  ("commit", "ko mit"),
  ("push", "pusz"),
  ("pull", "pul"),
  ("clone", "klon"),
  ("fork", "fork"),
  ("issue", "i szu"),
  ("sprint", "sprint"),
  ("scrum", "skram"),
  ("agile", "a dżajl"),
  ("kanban", "kan ban"),
  ("feature", "fi czer"),
  ("bug", "bag"),
  ("hotfix", "hot fiks"),
  ("release", "ri lis"),
  ("rollback", "rol bek"),
  ("downtime", "dałn tajm"),
  ("uptime", "ap tajm"),
  ("latency", "lej ten si"),
  ("throughput", "tru put"),
  ("scalability", "skej la bi li ti"),
  ("resilience", "re zy ljens"),
  ("monitoring", "mo ni to ring"),
  ("logging", "lo ging"),
  ("tracing", "trej sing"),
  ("debugging", "di ba ging"),
  ("profiling", "pro faj ling"),
  ("benchmarking", "bencz mar king"),
  ("caching", "ke szing"),
  ("cache", "kesz"),
  ("database", "dej ta bejs"),
  ("query", "kłi ri"),
  ("schema", "ski ma"),
  ("migration", "maj grej szyn"),
  ("backup", "bek ap"),
  ("restore", "ri stor"),
  ("snapshot", "snep szot"),
  ("cluster", "kla ster"),
  ("node", "nołd"),
  ("pod", "pod"),
  ("namespace", "nejm spejs"),
  ("ingress", "in gres"),
  ("egress", "i gres"),
  ("load balancer", "lołd ba lan ser"),
  ("proxy", "prok si"),
  ("gateway", "gejt łej"),
  ("endpoint", "end pojnt"),
  ("webhook", "łeb huk"),
  ("payload", "pej lołd"),
  ("header", "he der"),
  ("token", "to ken"),
  ("session", "se szyn"),
  ("cookie", "ku ki"),
  ("SSL", "es es el"),
  ("TLS", "ti el es"),
  ("certificate", "ser ty fi kat"),
  ("encryption", "en kryp szyn"),
  ("decryption", "di kryp szyn"),
  ("hashing", "he szing"),
  ("hash", "hesz"),
  ("salt", "solt"),
  ("password", "pas łord"),
  ("credentials", "kre den szals"),
  ("permission", "per mi szyn"),
  ("role", "rol"),
  ("policy", "po li si"),
  ("compliance", "kom plaj ens"),
  ("audit", "o dit"),
  ("vulnerability", "wul ne ra bi li ti"),
  ("exploit", "eks plojt"),
  ("patch", "pecz"),
  ("update", "ap dejt"),
  ("upgrade", "ap grejd"),
  ("downgrade", "dałn grejd"),
  ("version", "wer żyn"),
  ("changelog", "czejndż log"),
  ("readme", "rid mi"),
  ("documentation", "do kju men tej szyn"),
  ("tutorial", "tju to rial"),
  ("onboarding", "on bor ding"),
  ("boilerplate", "boj ler plejt"),
  ("scaffold", "ska fold"),
  ("template", "tem plejt"),
  ("snippet", "sni pet"),
  ("library", "laj bre ri"),
  ("package", "pa kidż"),
  ("module", "mo djul"),
  ("import", "im port"),
  ("export", "eks port"),
  ("dependency", "di pen den si"),
  ("dependencies", "di pen den sis"),
  ("runtime", "ran tajm"),
  ("compile", "kom pajl"),
  ("build", "bild"),
  ("bundle", "ban dl"),
  ("minify", "mi ni faj"),
  ("transpile", "trans pajl"),
  ("lint", "lint"),
  ("linter", "lin ter"),
  ("formatter", "for ma ter"),
  ("prettier", "pri ti er"),
  ("eslint", "i es lint"),
  ("webpack", "łeb pek"),
  ("vite", "wit"),
  ("rollup", "rol ap"),
  ("esbuild", "i es bild"),
  ("turbopack", "tur bo pek"),
  ("CloudWatch", "klałd łocz"),
  ("cloudwatch", "klałd łocz"),
  ("CloudFront", "klałd front"),
  ("CloudFormation", "klałd for mej szyn"),
  ("Lambda", "lam da"),
  ("lambda", "lam da"),
  ("DynamoDB", "daj na mo di bi"),
  ("S3", "es tri"),
  ("EC2", "i si tu"),
  ("ECS", "i si es"),
  ("EKS", "i kej es"),
  ("RDS", "ar di es"),
  ("SQS", "es kju es"),
  ("SNS", "es en es"),
  ("IAM", "aj em"),
  ("VPC", "wi pi si"),
  ("ELB", "i el bi"),
  ("ALB", "ej el bi"),
  ("NLB", "en el bi"),
  ("Route53", "rut fifty tri"),
  ("Cognito", "kog ni to"),
  ("Amplify", "em pli faj"),
  ("AppSync", "ep sink"),
  ("Athena", "a te na"),
  ("Redshift", "red szift"),
  ("Glue", "glu"),
  ("Kinesis", "ki ni sis"),
  ("SageMaker", "sejdż mej ker"),
  ("Bedrock", "bed rok"),
  ("CodePipeline", "kołd pajp lajn"),
  ("CodeBuild", "kołd bild"),
  ("CodeDeploy", "kołd di ploj"),
  ("environment", "en waj ron ment"),
  ("function", "fan kszyn"),
  ("request", "ri kłest"),
  ("response", "ri spons"),
  ("review", "ri wju"),
  ("callback", "kol bek"),
  ("promise", "pro mis"),
  ("async", "ej sink"),
  ("await", "a łejt"),
  ("fetch", "fecz"),
  ("render", "ren der"),
  ("component", "kom po nent"),
  ("props", "props"),
  ("state", "stejt"),
  ("hook", "huk"),
  ("effect", "i fekt"),
  ("context", "kon tekst"),
  ("provider", "pro waj der"),
  ("consumer", "kon sju mer"),
  ("reducer", "ri dju ser"),
  ("action", "ek szyn"),
  ("dispatch", "dis pecz"),
  ("selector", "se lek tor"),
  ("middleware", "mid l łer"),
  ("store", "stor"),
  ("slice", "slajs"),
  ("thunk", "tank"),
  ("saga", "sa ga")]

def ENGLISH_PRONUNCIATIONS_ENTRIES : List (String × String) := [
  ("AWS", "A W S"),
  ("API", "A P I"),
  ("APIs", "A P Is"),
  ("Node.js", "node J S"),
  ("node.js", "node J S"),
  ("AI", "A I"),
  ("ML", "M L"),
  ("LLM", "L L M"),
  ("GPU", "G P U"),
  ("CPU", "C P U")]

def ABBREVIATION_EXPANSIONS_ENTRIES : List (String × String) := [
  ("m.in.", "między innymi"),
  ("np.", "na przykład"),
  ("tzw.", "tak zwany"),
  ("tzn.", "to znaczy"),
  ("itp.", "i tym podobne"),
  ("itd.", "i tak dalej"),
  ("wg", "według"),
  ("ok.", "około"),
  ("dr", "doktor"),
  ("dr.", "doktor"),
  ("mgr", "magister"),
  ("mgr.", "magister"),
  ("inż.", "inżynier"),
  ("prof.", "profesor"),
  ("godz.", "godzina"),
  ("min.", "minut"),
  ("sek.", "sekund"),
  ("tys.", "tysięcy"),
  ("mln", "milionów"),
  ("mld", "miliardów"),
  ("zł", "złotych"),
  ("pkt", "punktów"),
  ("pkt.", "punktów"),
  ("r.", "roku"),
  ("w.", "wieku"),
  ("ub.", "ubiegłego"),
  ("br.", "bieżącego roku"),
  ("j.w.", "jak wyżej"),
  ("c.d.", "ciąg dalszy"),
  ("c.d.n.", "ciąg dalszy nastąpi"),
  ("b.r.", "bieżącego roku"),
  ("dn.", "dnia"),
  ("ds.", "do spraw"),
  ("tj.", "to jest"),
  ("pn.", "pod nazwą"),
  ("dot.", "dotyczący"),
  ("zob.", "zobacz"),
  ("por.", "porównaj"),
  ("pt.", "pod tytułem"),
  ("jw.", "jak wyżej"),
  ("dyr.", "dyrektor"),
  ("zast.", "zastępca"),
  ("prez.", "prezes"),
  ("przew.", "przewodniczący")]

def XTTS_SPELLING_FIXES_ENTRIES : List (String × String) := [
  ("chce", "hce"),
  ("chcę", "hcę"),
  ("chcesz", "hcesz"),
  ("chcemy", "hcemy"),
  ("chcą", "hcą"),
  ("chciał", "hciał"),
  ("chciała", "hciała"),
  ("chciałem", "hciałem"),
  ("chciałbym", "hciałbym"),
  ("szcz", "szc")]

/-- The value of the source's `POLISH_PRONUNCIATIONS` dict literal.  A Python
dict literal keeps each key at its first position with its last value; the
literal above repeats exactly these 16 keys, each listed twice with the same
resolution applied here: CI/CD, DevOps, DynamoDB, EC2, ECS, EKS, IAM, RDS,
S3, SSL, TLS, VPC, async, middleware, readme, webpack.  All remaining keys
are unique, so the other three tables below are their literals verbatim. -/
def POLISH_PRONUNCIATIONS : List (String × String) := [
  ("AWS", "a wu es"),
  ("GCP", "dżi si pi"),
  ("Azure", "ażur"),
  ("Node.js", "nołd dżej es"),
  ("node.js", "nołd dżej es"),
  ("NodeJS", "nołd dżej es"),
  ("React.js", "riakt dżej es"),
  ("react.js", "riakt dżej es"),
  ("Vue.js", "wju dżej es"),
  ("vue.js", "wju dżej es"),
  ("Next.js", "nekst dżej es"),
  ("next.js", "nekst dżej es"),
  ("Express.js", "ekspres dżej es"),
  ("Nuxt.js", "nakst dżej es"),
  ("Three.js", "tri dżej es"),
  ("D3.js", "di tri dżej es"),
  ("JS", "dżej es"),
  ("JavaScript", "dżawa skrypt"),
  ("TypeScript", "tajp skrypt"),
  ("Python", "pajton"),
  ("PyTorch", "paj torch"),
  ("NumPy", "nam paj"),
  ("SciPy", "saj paj"),
  ("API", "A P I"),
  ("APIs", "A P I"),
  ("REST", "rest"),
  ("RESTful", "restful"),
  ("GraphQL", "graf kju el"),
  ("gRPC", "dżi ar pi si"),
  ("HTTP", "ha te te pe"),
  ("HTTPS", "ha te te pe es"),
  ("WebSocket", "łeb soket"),
  ("OAuth", "o ałf"),
  ("JWT", "dżej dablju ti"),
  ("JSON", "dżejson"),
  ("YAML", "jamel"),
  ("XML", "iks em el"),
  ("HTML", "ha te em el"),
  ("CSS", "si es es"),
  ("SQL", "es kju el"),
  ("NoSQL", "no es kju el"),
  ("AI", "A I"),
  ("ML", "em el"),
  ("LLM", "el el em"),
  ("LLMs", "el el emy"),
  ("GPT", "dżi pi ti"),
  ("GPT-4", "dżi pi ti cztery"),
  ("GPT-5", "dżi pi ti pięć"),
  ("ChatGPT", "czat dżi pi ti"),
  ("OpenAI", "open A I"),
  ("NLP", "en el pi"),
  ("GPU", "dżi pi ju"),
  ("GPUs", "dżi pi ju"),
  ("CPU", "si pi ju"),
  ("TPU", "ti pi ju"),
  ("CUDA", "kuda"),
  ("CNN", "si en en"),
  ("RNN", "ar en en"),
  ("LSTM", "el es ti em"),
  ("RAG", "rag"),
  ("TTS", "ti ti es"),
  ("STT", "es ti ti"),
  ("DevOps", "dew ops"),
  ("CI/CD", "si aj si di"),
  ("CI", "si aj"),
  ("CD", "si di"),
  ("K8s", "kubernetes"),
  ("k8s", "kubernetes"),
  ("Docker", "doker"),
  ("VM", "wi em"),
  ("VMs", "wi emy"),
  ("VPC", "wi pi si"),
  ("EC2", "i si tu"),
  ("S3", "es tri"),
  ("RDS", "ar di es"),
  ("ECS", "i si es"),
  ("EKS", "i kej es"),
  ("IAM", "aj em"),
  ("CDN", "si di en"),
  ("DNS", "di en es"),
  ("IP", "aj pi"),
  ("SSH", "es es hasz"),
  ("SSL", "es es el"),
  ("TLS", "ti el es"),
  ("VPN", "wi pi en"),
  ("PostgreSQL", "postgres kju el"),
  ("MySQL", "maj es kju el"),
  ("MongoDB", "mongo di bi"),
  ("Redis", "redis"),
  ("DynamoDB", "daj na mo di bi"),
  ("SQLite", "es kju lajt"),
  ("Git", "git"),
  ("GitHub", "git hab"),
  ("GitLab", "git lab"),
  ("PR", "pi ar"),
  ("PRs", "pi ary"),
  ("Microsoft", "majkrosoft"),
  ("Google", "gugl"),
  ("Amazon", "amazon"),
  ("Netflix", "netfliks"),
  ("Spotify", "spotifaj"),
  ("Slack", "slak"),
  ("Zoom", "zum"),
  ("VS Code", "wi es kod"),
  ("VSCode", "wi es kod"),
  ("macOS", "mak o es"),
  ("iOS", "aj o es"),
  ("Linux", "linuks"),
  ("Ubuntu", "ubuntu"),
  ("Windows", "łindołs"),
  ("Chrome", "krom"),
  ("Firefox", "fajerfoks"),
  ("SaaS", "sas"),
  ("PaaS", "pas"),
  ("IaaS", "jas"),
  ("IoT", "aj o ti"),
  ("AR", "ej ar"),
  ("VR", "wi ar"),
  ("XR", "iks ar"),
  ("SDK", "es di kej"),
  ("IDE", "aj di i"),
  ("CLI", "si el aj"),
  ("GUI", "dżi ju aj"),
  ("UI", "ju aj"),
  ("UX", "ju iks"),
  ("URL", "ju ar el"),
  ("URI", "ju ar aj"),
  ("UUID", "ju ju aj di"),
  ("regex", "redżeks"),
  ("RegEx", "redżeks"),
  ("async", "ej sink"),
  ("npm", "en pi em"),
  ("pip", "pip"),
  ("yarn", "jarn"),
  ("webpack", "łeb pek"),
  ("localhost", "lokal host"),
  ("README", "rid mi"),
  ("readme", "rid mi"),
  ("TODO", "tu du"),
  ("FIXME", "fiks mi"),
  ("FAQ", "ef ej kju"),
  ("etc.", "i tak dalej"),
  ("e.g.", "na przykład"),
  ("i.e.", "to znaczy"),
  ("repository", "re po zy to ri"),
  ("repo", "re po"),
  ("deployment", "di ploj ment"),
  ("deploy", "di ploj"),
  ("middleware", "mid l łer"),
  ("authentication", "o ten ty fi kej szyn"),
  ("auth", "ołf"),
  ("refactoring", "ri fak to ring"),
  ("refactor", "ri fak tor"),
  ("staging", "stej dżing"),
  ("backend", "bek end"),
  ("frontend", "front end"),
  ("legacy", "le ga si"),
  ("workflow", "łork floł"),
  ("serverless", "ser wer les"),
  ("microservices", "maj kro ser wi sys"),
  ("microservice", "maj kro ser wis"),
  ("containerized", "kon tej ne rajzd"),
  ("container", "kon tej ner"),
  ("orchestration", "or ke strej szyn"),
  ("pipeline", "pajp lajn"),
  ("GitOps", "git ops"),
  ("branch", "brancz"),
  ("merge", "merdż"),
  ("commit", "ko mit"),
  ("push", "pusz"),
  ("pull", "pul"),
  ("clone", "klon"),
  ("fork", "fork"),
  ("issue", "i szu"),
  ("sprint", "sprint"),
  ("scrum", "skram"),
  ("agile", "a dżajl"),
  ("kanban", "kan ban"),
  ("feature", "fi czer"),
  ("bug", "bag"),
  ("hotfix", "hot fiks"),
  ("release", "ri lis"),
  ("rollback", "rol bek"),
  ("downtime", "dałn tajm"),
  ("uptime", "ap tajm"),
  ("latency", "lej ten si"),
  ("throughput", "tru put"),
  ("scalability", "skej la bi li ti"),
  ("resilience", "re zy ljens"),
  ("monitoring", "mo ni to ring"),
  ("logging", "lo ging"),
  ("tracing", "trej sing"),
  ("debugging", "di ba ging"),
  ("profiling", "pro faj ling"),
  ("benchmarking", "bencz mar king"),
  ("caching", "ke szing"),
  ("cache", "kesz"),
  ("database", "dej ta bejs"),
  ("query", "kłi ri"),
  ("schema", "ski ma"),
  ("migration", "maj grej szyn"),
  ("backup", "bek ap"),
  ("restore", "ri stor"),
  ("snapshot", "snep szot"),
  ("cluster", "kla ster"),
  ("node", "nołd"),
  ("pod", "pod"),
  ("namespace", "nejm spejs"),
  ("ingress", "in gres"),
  ("egress", "i gres"),
  ("load balancer", "lołd ba lan ser"),
  ("proxy", "prok si"),
  ("gateway", "gejt łej"),
  ("endpoint", "end pojnt"),
  ("webhook", "łeb huk"),
  ("payload", "pej lołd"),
  ("header", "he der"),
  ("token", "to ken"),
  ("session", "se szyn"),
  ("cookie", "ku ki"),
  ("certificate", "ser ty fi kat"),
  ("encryption", "en kryp szyn"),
  ("decryption", "di kryp szyn"),
  ("hashing", "he szing"),
  ("hash", "hesz"),
  ("salt", "solt"),
  ("password", "pas łord"),
  ("credentials", "kre den szals"),
  ("permission", "per mi szyn"),
  ("role", "rol"),
  ("policy", "po li si"),
  ("compliance", "kom plaj ens"),
  ("audit", "o dit"),
  ("vulnerability", "wul ne ra bi li ti"),
  ("exploit", "eks plojt"),
  ("patch", "pecz"),
  ("update", "ap dejt"),
  ("upgrade", "ap grejd"),
  ("downgrade", "dałn grejd"),
  ("version", "wer żyn"),
  ("changelog", "czejndż log"),
  ("documentation", "do kju men tej szyn"),
  ("tutorial", "tju to rial"),
  ("onboarding", "on bor ding"),
  ("boilerplate", "boj ler plejt"),
  ("scaffold", "ska fold"),
  ("template", "tem plejt"),
  ("snippet", "sni pet"),
  ("library", "laj bre ri"),
  ("package", "pa kidż"),
  ("module", "mo djul"),
  ("import", "im port"),
  ("export", "eks port"),
  ("dependency", "di pen den si"),
  ("dependencies", "di pen den sis"),
  ("runtime", "ran tajm"),
  ("compile", "kom pajl"),
  ("build", "bild"),
  ("bundle", "ban dl"),
  ("minify", "mi ni faj"),
  ("transpile", "trans pajl"),
  ("lint", "lint"),
  ("linter", "lin ter"),
  ("formatter", "for ma ter"),
  ("prettier", "pri ti er"),
  ("eslint", "i es lint"),
  ("vite", "wit"),
  ("rollup", "rol ap"),
  ("esbuild", "i es bild"),
  ("turbopack", "tur bo pek"),
  ("CloudWatch", "klałd łocz"),
  ("cloudwatch", "klałd łocz"),
  ("CloudFront", "klałd front"),
  ("CloudFormation", "klałd for mej szyn"),
  ("Lambda", "lam da"),
  ("lambda", "lam da"),
  ("SQS", "es kju es"),
  ("SNS", "es en es"),
  ("ELB", "i el bi"),
  ("ALB", "ej el bi"),
  ("NLB", "en el bi"),
  ("Route53", "rut fifty tri"),
  ("Cognito", "kog ni to"),
  ("Amplify", "em pli faj"),
  ("AppSync", "ep sink"),
  ("Athena", "a te na"),
  ("Redshift", "red szift"),
  ("Glue", "glu"),
  ("Kinesis", "ki ni sis"),
  ("SageMaker", "sejdż mej ker"),
  ("Bedrock", "bed rok"),
  ("CodePipeline", "kołd pajp lajn"),
  ("CodeBuild", "kołd bild"),
  ("CodeDeploy", "kołd di ploj"),
  ("environment", "en waj ron ment"),
  ("function", "fan kszyn"),
  ("request", "ri kłest"),
  ("response", "ri spons"),
  ("review", "ri wju"),
  ("callback", "kol bek"),
  ("promise", "pro mis"),
  ("await", "a łejt"),
  ("fetch", "fecz"),
  ("render", "ren der"),
  ("component", "kom po nent"),
  ("props", "props"),
  ("state", "stejt"),
  ("hook", "huk"),
  ("effect", "i fekt"),
  ("context", "kon tekst"),
  ("provider", "pro waj der"),
  ("consumer", "kon sju mer"),
  ("reducer", "ri dju ser"),
  ("action", "ek szyn"),
  ("dispatch", "dis pecz"),
  ("selector", "se lek tor"),
  ("store", "stor"),
  ("slice", "slajs"),
  ("thunk", "tank"),
  ("saga", "sa ga")]

def ENGLISH_PRONUNCIATIONS : List (String × String) :=
  ENGLISH_PRONUNCIATIONS_ENTRIES

def ABBREVIATION_EXPANSIONS : List (String × String) :=
  ABBREVIATION_EXPANSIONS_ENTRIES

def XTTS_SPELLING_FIXES : List (String × String) :=
  XTTS_SPELLING_FIXES_ENTRIES

/-! ## Pronunciation Normalizer (`normalize_text_for_tts`, text_normalizer.py 384-418)

Keys are sorted by length, longest first (`sorted(keys, key=len,
reverse=True)` — a stable sort, modelled by a stable insertion sort).
Dot-containing terms are replaced as case-insensitive literals; all other
terms with `\b` word boundaries, case-sensitively.  Every non-dot key of the
tables begins and ends with a word character, so `\b` before (after) a key
reduces to "previous (next) character is not a word character". -/

/-- Stable insertion: `x` goes before the first element not longer than it,
so earlier entries keep priority among equal lengths. -/
def insertByLenDesc (x : String) : List String → List String
  | [] => [x]
  | y :: ys => if y.length ≤ x.length then x :: y :: ys else y :: insertByLenDesc x ys

def sortByLenDesc (l : List String) : List String := l.foldr insertByLenDesc []

/-- `\b` after a term ending in a word character. -/
def wordBoundaryAfter (d : List Char) : Bool :=
  match d with
  | [] => true
  | c :: _ => !isWordChar c

/-- `re.sub(r'\b' + term + r'\b', pron, ·)` (case-sensitive), threading
"previous character is a word character". -/
def subWB (term pron : List Char) : Nat → Bool → List Char → List Char
  | 0, _, cs => cs
  | _, _, [] => []
  | fuel + 1, prevW, c :: cs =>
    if !prevW && List.isPrefixOf term (c :: cs) &&
        wordBoundaryAfter ((c :: cs).drop term.length) then
      pron ++ subWB term pron fuel
        (isWordChar (((c :: cs).take term.length).getLastD ' '))
        ((c :: cs).drop term.length)
    else c :: subWB term pron fuel (isWordChar c) cs

/-- `re.sub(re.escape(term), pron, ·, IGNORECASE)` for dot-containing terms. -/
def subLiteralCI (term pron : List Char) : Nat → List Char → List Char
  | 0, cs => cs
  | _, [] => []
  | fuel + 1, c :: cs =>
    if ciPref term (c :: cs) then
      pron ++ subLiteralCI term pron fuel ((c :: cs).drop term.length)
    else c :: subLiteralCI term pron fuel cs

def applyTerm (cs : List Char) (term pron : String) : List Char :=
  if term.data.contains '.' then subLiteralCI term.data pron.data (cs.length + 1) cs
  else subWB term.data pron.data (cs.length + 1) false cs

/-- `re.sub(r'\s+', ' ', ·)`. -/
def collapseWsAll : Nat → List Char → List Char
  | 0, cs => cs
  | _, [] => []
  | fuel + 1, c :: cs =>
    if 1 ≤ runLen pyIsSpace (c :: cs) then
      ' ' :: collapseWsAll fuel ((c :: cs).drop (runLen pyIsSpace (c :: cs)))
    else c :: collapseWsAll fuel cs

/-- The same stable insertion, on (term, pronunciation) pairs keyed by the
term's length. -/
def insertByKeyLenDesc (x : String × String) :
    List (String × String) → List (String × String)
  | [] => [x]
  | y :: ys =>
    if y.1.length ≤ x.1.length then x :: y :: ys
    else y :: insertByKeyLenDesc x ys

def sortByKeyLenDesc (l : List (String × String)) : List (String × String) :=
  l.foldr insertByKeyLenDesc []

/-- `normalize_text_for_tts`.  The source sorts the keys and looks each up in
the dict (`pronunciation = pronunciations[term]`); since the keys are
distinct, that sequence of (term, pronunciation) pairs is exactly the table's
pairs stably sorted by key length (`map_fst_sortByKeyLenDesc` below relates
the two sorts). -/
def normalizeTextForTTS (text : String) (language : String) : String :=
  let table := if language = "pl" then POLISH_PRONUNCIATIONS else ENGLISH_PRONUNCIATIONS
  let r := (sortByKeyLenDesc table).foldl
    (fun cs kv => applyTerm cs kv.1 kv.2) text.data
  String.mk (collapseWsAll (r.length + 1) r)

/-- The sorted Polish term list (what the `"pl"` branch iterates over). -/
def sortedTermsPL : List String :=
  sortByLenDesc (POLISH_PRONUNCIATIONS.map Prod.fst)

/-! ## XTTS glitch fixes (`fix_xtts_glitches`, text_normalizer.py 610-655) -/

/-- `(?=\s|$|[,;:!?])` after an abbreviation (`$` before a final newline is
subsumed by `\s`). -/
def abbrevLookahead (d : List Char) : Bool :=
  match d with
  | [] => true
  | c :: _ => pyIsSpace c || c = ',' || c = ';' || c = ':' || c = '!' || c = '?'

/-- One abbreviation pass:
`re.sub(r'(?<![letters])' + abbrev + r'(?=\s|$|[,;:!?])', exp, ·, IGNORECASE)`,
threading "previous character is a letter". -/
def subAbbrev (ab exp : List Char) : Nat → Bool → List Char → List Char
  | 0, _, cs => cs
  | _, _, [] => []
  | fuel + 1, prevLetter, c :: cs =>
    if !prevLetter && ciPref ab (c :: cs) &&
        abbrevLookahead ((c :: cs).drop ab.length) then
      exp ++ subAbbrev ab exp fuel
        (isLetterPL (((c :: cs).take ab.length).getLastD ' '))
        ((c :: cs).drop ab.length)
    else c :: subAbbrev ab exp fuel (isLetterPL c) cs

/-- Python `str.capitalize()` (first character upper, the rest lower). -/
def pyCapitalize (w : List Char) : List Char :=
  match w with
  | [] => []
  | c :: cs => toUpperPL c :: cs.map toLowerPL

/-- `replace_preserve_case`: all-upper match → upper fix, capitalized match →
capitalized fix, else the fix verbatim (the fix words are all-letter). -/
def caseReplace (m fix : List Char) : List Char :=
  if m ≠ [] ∧ m.all isUpperPL then fix.map toUpperPL
  else if (match m with | c :: _ => isUpperPL c | [] => false) then pyCapitalize fix
  else fix

/-- One spelling-fix pass: `re.sub(r'\b' + word + r'\b', preserve_case, ·,
IGNORECASE)`. -/
def subSpellFix (word fix : List Char) : Nat → Bool → List Char → List Char
  | 0, _, cs => cs
  | _, _, [] => []
  | fuel + 1, prevW, c :: cs =>
    if !prevW && ciPref word (c :: cs) &&
        wordBoundaryAfter ((c :: cs).drop word.length) then
      caseReplace ((c :: cs).take word.length) fix ++
        subSpellFix word fix fuel
          (isWordChar (((c :: cs).take word.length).getLastD ' '))
          ((c :: cs).drop word.length)
    else c :: subSpellFix word fix fuel (isWordChar c) cs

/-- `re.sub(r'\s{2,}', ' ', ·)`. -/
def collapseWsRuns2 : Nat → List Char → List Char
  | 0, cs => cs
  | _, [] => []
  | fuel + 1, c :: cs =>
    if 2 ≤ runLen pyIsSpace (c :: cs) then
      ' ' :: collapseWsRuns2 fuel ((c :: cs).drop (runLen pyIsSpace (c :: cs)))
    else c :: collapseWsRuns2 fuel cs

def connectives : List (List Char) :=
  ["ale".data, "więc".data, "jednak".data, "natomiast".data, "czyli".data,
    "dlatego".data]

/-- One anchored attempt of
`(\w{2,})\s+(ale|więc|jednak|natomiast|czyli|dlatego)\s+` with replacement
`\1, \2 `; returns the replacement text and the rest after the match. -/
def commaRuleAt (cs : List Char) : Option (List Char × List Char) :=
  let w := runLen isWordChar cs
  if 2 ≤ w then
    let d1 := cs.drop w
    let s1 := runLen pyIsSpace d1
    if 1 ≤ s1 then
      let d2 := d1.drop s1
      match connectives.findSome? (fun conn =>
        if List.isPrefixOf conn d2 &&
            decide (1 ≤ runLen pyIsSpace (d2.drop conn.length)) then
          some conn
        else none) with
      | some conn =>
        some (cs.take w ++ ", ".data ++ conn ++ [' '],
          (d2.drop conn.length).drop (runLen pyIsSpace (d2.drop conn.length)))
      | none => none
    else none
  else none

/-- `re.sub(r'(\w{2,})\s+(ale|…|dlatego)\s+', r'\1, \2 ', ·)`. -/
def commaRule : Nat → List Char → List Char
  | 0, cs => cs
  | _, [] => []
  | fuel + 1, c :: cs =>
    match commaRuleAt (c :: cs) with
    | some (rep, rest) => rep ++ commaRule fuel rest
    | none => c :: commaRule fuel cs

/-- `fix_xtts_glitches`. -/
def fixXttsGlitches (text : String) : String :=
  let t0 := text.data
  let t1 := ABBREVIATION_EXPANSIONS.foldl
    (fun cs kv => subAbbrev kv.1.data kv.2.data (cs.length + 1) false cs) t0
  let t2 := XTTS_SPELLING_FIXES.foldl
    (fun cs kv => subSpellFix kv.1.data kv.2.data (cs.length + 1) false cs) t1
  let t3 := collapseWsRuns2 (t2.length + 1) t2
  let t4 := commaRule (t3.length + 1) t3
  String.mk (pyStrip t4)

/-! ## Combined pipeline (`sanitize_segment_text`, text_normalizer.py 658-700)
and segment splitting (`_split_segment_if_needed`, tts_engine.py 233-270) -/

/-- Floor of the base-2 logarithm, by fueled division (fuel `n` suffices
since the recursion depth is at most `log2 n`). -/
def log2F : Nat → Nat → Nat
  | 0, _ => 0
  | fuel + 1, n => if 2 ≤ n then log2F fuel (n / 2) + 1 else 0

/-- `m * 0.7` under IEEE double semantics, as a numerator at scale `2^52`:
`0.7` is the double `3152519739159347 / 2^52`; the product is rounded to
nearest-even double.  Valid for `m < 2^53` (the program's limits are
three-digit). -/
def mul07num (m : Nat) : Nat :=
  let num := m * 3152519739159347
  if num = 0 then 0
  else
    let b := log2F num num
    if b ≤ 52 then num
    else
      let shift := b - 52
      let q := num / 2 ^ shift
      let r := num % 2 ^ shift
      let half := 2 ^ (shift - 1)
      let q' := if half < r ∨ (r = half ∧ q % 2 = 1) then q + 1 else q
      q' * 2 ^ shift

/-- Python `int(m * 0.7)`. -/
def intTimes07 (m : Nat) : Nat := mul07num m / 2 ^ 52

/-- Python `n > m * 0.7` (exact int/float comparison). -/
def gtFloat07 (n m : Nat) : Bool := decide (mul07num m < n * 2 ^ 52)

/-- `max` of three `rfind` results (with `none` as Python's `-1`). -/
def maxOpt : Option Nat → Option Nat → Option Nat
  | none, b => b
  | a, none => a
  | some a, some b => some (max a b)

/-- `sanitize_segment_text(text, max_length)`. -/
def sanitizeSegmentText (text : String) (maxLength : Nat) : Option String :=
  let cleaned := cleanScriptForTTS text
  if isArtifact cleaned then none
  else if cleaned = "" ∨ (pyStrip cleaned.data).length < 10 then none
  else
    let fixed := fixXttsGlitches cleaned
    if maxLength < fixed.length then
      let truncated := fixed.data.take maxLength
      match maxOpt (maxOpt (rfindChar '.' truncated) (rfindChar '!' truncated))
          (rfindChar '?' truncated) with
      | some i =>
        if gtFloat07 i maxLength then some (String.mk (truncated.take (i + 1)))
        else
          match rfindChar ' ' truncated with
          | some j => some (String.mk (truncated.take j ++ "...".data))
          | none => some (String.mk (truncated ++ "...".data))
      | none =>
        match rfindChar ' ' truncated with
        | some j => some (String.mk (truncated.take j ++ "...".data))
        | none => some (String.mk (truncated ++ "...".data))
    else some fixed

/-- `XTTS_CHAR_LIMITS` (tts_engine.py 18-27) with its
`.get(language, XTTS_CHAR_LIMITS["default"])` lookup. -/
def XTTS_CHAR_LIMITS : List (String × Nat) :=
  [("pl", 224), ("en", 250), ("de", 250), ("es", 250), ("fr", 250),
    ("it", 250), ("pt", 250), ("default", 200)]

def xttsLimit (language : String) : Nat :=
  match XTTS_CHAR_LIMITS.find? (fun p => p.1 = language) with
  | some p => p.2
  | none => 200

/-- `_split_segment_if_needed`.  `normalize` abstracts the runtime choice
between the optional LLM normalizer (an external collaborator) and the
static `normalize_text_for_tts`; both have shape (text, language) → text.
`none` models the diverging chunker configuration (never reached for the
program's limits, all ≥ 200). -/
def splitSegmentIfNeeded (normalize : String → String → String)
    (language : String) (seg : Segment) : Option (List Segment) :=
  match sanitizeSegmentText seg.text 500 with
  | none => some [seg]
  | some sanitized =>
    let normalized := normalize sanitized language
    let maxChars := xttsLimit language
    if normalized.length ≤ maxChars then some [seg]
    else
      (splitLongText sanitized (intTimes07 maxChars)).map
        (fun chunks => chunks.map (fun c => ⟨seg.speaker, c⟩))

/-! ## Sortedness of the normalizer's term order -/

lemma mem_insertByLenDesc {z x : String} {l : List String}
    (h : z ∈ insertByLenDesc x l) : z = x ∨ z ∈ l := by
  induction l with
  | nil => simpa [insertByLenDesc] using h
  | cons y ys ih =>
    by_cases hle : y.length ≤ x.length
    · simpa [insertByLenDesc, hle] using h
    · simp only [insertByLenDesc, if_neg hle, List.mem_cons] at h
      rcases h with h | h
      · exact Or.inr (by simp [h])
      · rcases ih h with h | h
        · exact Or.inl h
        · exact Or.inr (List.mem_cons_of_mem _ h)

lemma insertByLenDesc_sorted (x : String) (l : List String)
    (h : l.Pairwise (fun a b => b.length ≤ a.length)) :
    (insertByLenDesc x l).Pairwise (fun a b => b.length ≤ a.length) := by
  induction l with
  | nil => simp [insertByLenDesc]
  | cons y ys ih =>
    rcases List.pairwise_cons.mp h with ⟨hy, hys⟩
    by_cases hle : y.length ≤ x.length
    · simp only [insertByLenDesc, if_pos hle]
      refine List.pairwise_cons.mpr ⟨?_, h⟩
      intro z hz
      rcases List.mem_cons.mp hz with hz | hz
      · exact hz ▸ hle
      · exact le_trans (hy z hz) hle
    · simp only [insertByLenDesc, if_neg hle]
      refine List.pairwise_cons.mpr ⟨?_, ih hys⟩
      intro z hz
      rcases mem_insertByLenDesc hz with hz | hz
      · exact hz ▸ le_of_not_le hle
      · exact hy z hz

lemma insertByLenDesc_perm (x : String) (l : List String) :
    (insertByLenDesc x l).Perm (x :: l) := by
  induction l with
  | nil => simp [insertByLenDesc]
  | cons y ys ih =>
    by_cases hle : y.length ≤ x.length
    · simp [insertByLenDesc, hle]
    · simp only [insertByLenDesc, if_neg hle]
      exact (ih.cons y).trans (List.Perm.swap x y ys)

lemma sortByLenDesc_sorted (l : List String) :
    (sortByLenDesc l).Pairwise (fun a b => b.length ≤ a.length) := by
  induction l with
  | nil => simp [sortByLenDesc]
  | cons x xs ih => exact insertByLenDesc_sorted x _ ih

lemma sortByLenDesc_perm (l : List String) : (sortByLenDesc l).Perm l := by
  induction l with
  | nil => simp [sortByLenDesc]
  | cons x xs ih =>
    exact (insertByLenDesc_perm x (sortByLenDesc xs)).trans (ih.cons x)

lemma map_fst_insertByKeyLenDesc (x : String × String)
    (l : List (String × String)) :
    (insertByKeyLenDesc x l).map Prod.fst = insertByLenDesc x.1 (l.map Prod.fst) := by
  induction l with
  | nil => rfl
  | cons y ys ih =>
    by_cases hle : y.1.length ≤ x.1.length
    · simp [insertByKeyLenDesc, insertByLenDesc, hle]
    · simp [insertByKeyLenDesc, insertByLenDesc, hle, ih]

/-- The pair-sorted table's key sequence is exactly the sorted key list, so
the normalizer's fold visits terms in the order `sortedTermsPL` describes. -/
lemma map_fst_sortByKeyLenDesc (l : List (String × String)) :
    (sortByKeyLenDesc l).map Prod.fst = sortByLenDesc (l.map Prod.fst) := by
  induction l with
  | nil => rfl
  | cons x xs ih =>
    simp only [sortByKeyLenDesc, sortByLenDesc, List.foldr_cons, List.map_cons]
    rw [map_fst_insertByKeyLenDesc]
    simp only [sortByKeyLenDesc, sortByLenDesc] at ih
    rw [ih]

/-- C7: The Pronunciation Normalizer iterates the whole table in descending
key-length order (`sortedTermsPL` is length-sorted and a permutation of the
Polish table's keys), so a longer term is replaced as a whole before any
shorter overlapping entry is considered: the table holds both `CI/CD` and its
substring `CI`, and normalizing `Mamy CI/CD` yields the whole-term
pronunciation `Mamy si aj si di`, not the partial replacement
`Mamy si aj/CD` that the shorter entry alone would produce. -/
theorem C7_normalizer_longest_first :
    sortedTermsPL.Pairwise (fun a b => b.length ≤ a.length) ∧
    sortedTermsPL.Perm (POLISH_PRONUNCIATIONS.map Prod.fst) ∧
    (sortByKeyLenDesc POLISH_PRONUNCIATIONS).map Prod.fst = sortedTermsPL ∧
    ("CI/CD", "si aj si di") ∈ POLISH_PRONUNCIATIONS ∧
    ("CI", "si aj") ∈ POLISH_PRONUNCIATIONS ∧
    isSubstr "CI".data "CI/CD".data = true ∧
    normalizeTextForTTS "Mamy CI/CD" "pl" = "Mamy si aj si di" ∧
    normalizeTextForTTS "Mamy CI/CD" "pl" ≠ "Mamy si aj/CD" := by
  have hEq : normalizeTextForTTS "Mamy CI/CD" "pl" = "Mamy si aj si di" := by
    decide
  exact ⟨sortByLenDesc_sorted _, sortByLenDesc_perm _,
    map_fst_sortByKeyLenDesc POLISH_PRONUNCIATIONS, by decide, by decide,
    by decide, hEq, by rw [hEq]; decide⟩

/-- C10: When sanitization succeeds, the normalized text exceeds the
language's character limit and the chunker returns, the split path emits
exactly the chunks in the chunker's (original text) order, each wrapped with
the original segment's speaker; in particular every resulting sub-segment
carries that speaker. -/
theorem C10_split_preserves_speaker_and_order
    (normalize : String → String → String) (language : String) (seg : Segment)
    (sanitized : String) (chunks : List String)
    (hsan : sanitizeSegmentText seg.text 500 = some sanitized)
    (hlong : xttsLimit language < (normalize sanitized language).length)
    (hsplit : splitLongText sanitized (intTimes07 (xttsLimit language)) =
      some chunks) :
    splitSegmentIfNeeded normalize language seg =
      some (chunks.map (fun c => ⟨seg.speaker, c⟩)) ∧
    ∀ s ∈ chunks.map (fun c => (⟨seg.speaker, c⟩ : Segment)),
      s.speaker = seg.speaker := by
  constructor
  · unfold splitSegmentIfNeeded
    rw [hsan]
    simp only [if_neg (not_le.mpr hlong), hsplit, Option.map_some']
  · intro s hs
    rcases List.mem_map.mp hs with ⟨c, _, rfl⟩
    rfl

/-- Concrete instance of C10: a Polish two-sentence segment of 184 characters
survives sanitization unchanged, a normalizer output of 300 characters
exceeds the 224-character Polish limit, and the chunker splits the sanitized
text at the sentence boundary into two sub-segments with the original
speaker. -/
theorem C10_split_witness :
    (sanitizeSegmentText (String.mk (("Witaj drogi widzu w naszym podcascie o nowych technologiach. Dzisiaj rozmawiamy o tym jak wielkie modele zmieniaja prace programistow na calym swiecie. Zapraszamy do sluchania audycji.").data)) 500 =
      some "Witaj drogi widzu w naszym podcascie o nowych technologiach. Dzisiaj rozmawiamy o tym jak wielkie modele zmieniaja prace programistow na calym swiecie. Zapraszamy do sluchania audycji.") ∧
    xttsLimit "pl" < (String.mk (List.replicate 300 'x')).length ∧
    splitSegmentIfNeeded (fun _ _ => String.mk (List.replicate 300 'x')) "pl"
      ⟨Speaker.HOST, "Witaj drogi widzu w naszym podcascie o nowych technologiach. Dzisiaj rozmawiamy o tym jak wielkie modele zmieniaja prace programistow na calym swiecie. Zapraszamy do sluchania audycji."⟩ =
      some [⟨Speaker.HOST, "Witaj drogi widzu w naszym podcascie o nowych technologiach. Dzisiaj rozmawiamy o tym jak wielkie modele zmieniaja prace programistow na calym swiecie."⟩,
        ⟨Speaker.HOST, "Zapraszamy do sluchania audycji."⟩] := by
  refine ⟨by decide, by decide, ?_⟩
  have h := C10_split_preserves_speaker_and_order
    (fun _ _ => String.mk (List.replicate 300 'x')) "pl"
    ⟨Speaker.HOST, "Witaj drogi widzu w naszym podcascie o nowych technologiach. Dzisiaj rozmawiamy o tym jak wielkie modele zmieniaja prace programistow na calym swiecie. Zapraszamy do sluchania audycji."⟩
    "Witaj drogi widzu w naszym podcascie o nowych technologiach. Dzisiaj rozmawiamy o tym jak wielkie modele zmieniaja prace programistow na calym swiecie. Zapraszamy do sluchania audycji."
    ["Witaj drogi widzu w naszym podcascie o nowych technologiach. Dzisiaj rozmawiamy o tym jak wielkie modele zmieniaja prace programistow na calym swiecie.",
      "Zapraszamy do sluchania audycji."]
    (by decide) (by decide) (by decide)
  exact h.1

end Feedcast
